import Mathlib

/-!
Verification of the knowledge-retrieval pipeline and multi-engine translation
arbitrator of the LLMTranslator repository, shallowly embedded in Lean.

Conventions of the embedding:
* Python strings are `List Char`; Python's substring test `a in b` is `isSub`.
* Python floats are modelled as rationals (`ℚ`); the claims under study only
  involve comparisons with generous slack, so binary rounding is immaterial.
* External collaborators (the difflib `SequenceMatcher.ratio` call, the Python
  float parser used on the rubric text, number formatting, and the
  mixed-language segmentation signal, which the design document treats as a
  black-box signal source) are passed in as function parameters.
* Wall-clock timestamp fields (`detected_at` / `learned_at`, produced by
  `datetime.now()`) are not modelled: no property under study mentions them.
* `Python list.sort(key=..., reverse=True)` / `sorted(..., reverse=True)` are
  stable descending sorts; they are modelled by `List.insertionSort` with the
  relation `fun a b => key b ≤ key a`, which is also a stable descending sort
  (équal keys keep their original relative order), and stable sorts for a
  total preorder are unique.
-/

namespace LLMTranslator

/-- The comparison used by Python's stable descending sorts
(`sort(key=..., reverse=True)`): `a` may come before `b` iff `key b ≤ key a`. -/
def rankDesc (key : α → ℚ) : α → α → Prop := fun a b => key b ≤ key a

instance (key : α → ℚ) : DecidableRel (rankDesc key) := fun a b =>
  inferInstanceAs (Decidable (key b ≤ key a))

instance (key : α → ℚ) : IsTotal α (rankDesc key) :=
  ⟨fun a b => le_total (key b) (key a)⟩

instance (key : α → ℚ) : IsTrans α (rankDesc key) :=
  ⟨fun _ _ _ h₁ h₂ => le_trans h₂ h₁⟩

/-- Python `a in b` on strings: `p` occurs as a contiguous substring of `t`. -/
def isSub (p : List Char) : List Char → Bool
  | [] => p.isEmpty
  | c :: cs => p.isPrefixOf (c :: cs) || isSub p cs

/-- Python `str.strip()` (ASCII/unicode whitespace at both ends). -/
def stripChars (l : List Char) : List Char :=
  ((l.dropWhile Char.isWhitespace).reverse.dropWhile Char.isWhitespace).reverse

/-- Python `str.split(sep)` for a one-character separator. -/
def splitOnChar (sep : Char) : List Char → List (List Char)
  | [] => [[]]
  | c :: cs =>
    match splitOnChar sep cs with
    | [] => if c = sep then [[], []] else [[c]]
    | h :: t => if c = sep then [] :: h :: t else (c :: h) :: t

/-- Python `dict.fromkeys` de-duplication: keep the first occurrence of each
element, preserving order. -/
def dedupFirst [BEq α] (seen : List α) : List α → List α
  | [] => []
  | x :: xs => if seen.contains x then dedupFirst seen xs
               else x :: dedupFirst (x :: seen) xs

/-- Python `str.replace(pat, rep)` (all non-overlapping occurrences, left to
right) for a non-empty pattern `p :: ps`. -/
def replaceAll (p : Char) (ps rep : List Char) : List Char → List Char
  | [] => []
  | c :: cs =>
    if (p :: ps).isPrefixOf (c :: cs) then rep ++ replaceAll p ps rep (cs.drop ps.length)
    else c :: replaceAll p ps rep cs
  termination_by l => l.length
  decreasing_by
  · simp only [List.length_drop, List.length_cons]; omega
  · simp only [List.length_cons]; omega

/-- Association-list lookup, modelling a Python dict read. -/
def alookup (k : String) : List (String × β) → Option β
  | [] => none
  | (k₂, v) :: rest => if k₂ = k then some v else alookup k rest

/-- Association-list overwrite (insertion order preserved; appends if absent),
modelling a Python dict write. -/
def aupdate (k : String) (v : β) : List (String × β) → List (String × β)
  | [] => [(k, v)]
  | (k₂, w) :: rest => if k₂ = k then (k₂, v) :: rest else (k₂, w) :: aupdate k v rest

section SceneDetector

/-- One entry of `SceneDetector.scene_keywords`. -/
structure SceneConfig where
  scene : String
  keywords : List (List Char)
  weight : ℚ

/-- The `scene_keywords` table of `SceneDetector.__init__`. -/
def scene_keywords : List SceneConfig :=
  [⟨"daily_life",
    ["三尖儿".data, "仨尖儿".data, "坐11路".data, "打酱油".data, "走亲戚".data,
     "遛弯".data, "打牌".data, "买菜".data, "做饭".data, "逛街".data, "聊天".data,
     "唠嗑".data, "串门".data], 1⟩,
   ⟨"business",
    ["落地".data, "闭环".data, "赋能".data, "抓手".data, "痛点".data, "打法".data,
     "布局".data, "赛道".data, "盈利".data, "商业模式".data, "战略".data,
     "执行".data, "KPI".data, "ROI".data], 1⟩,
   ⟨"technology",
    ["接口".data, "API".data, "前端".data, "后端".data, "数据库".data, "部署".data,
     "上线".data, "代码".data, "算法".data, "架构".data, "系统".data,
     "服务器".data, "客户端".data, "编程".data], 1⟩,
   ⟨"sports",
    ["比赛".data, "运动员".data, "得分".data, "进球".data, "训练".data, "教练".data,
     "球队".data, "冠军".data], 1⟩,
   ⟨"medical",
    ["患者".data, "诊断".data, "治疗".data, "药物".data, "症状".data, "医生".data,
     "医院".data, "手术".data], 1⟩,
   ⟨"academic",
    ["研究".data, "论文".data, "实验".data, "数据".data, "分析".data, "结论".data,
     "方法".data, "理论".data], 1⟩]

/-- Number of keywords of `cfg` occurring in `text` (the `matches` counter of
`detect_scenes`). -/
def hitCount (text : List Char) (cfg : SceneConfig) : Nat :=
  (cfg.keywords.filter (fun kw => isSub kw text)).length

/-- The per-scene score of `detect_scenes`: `none` when no keyword matches. -/
def sceneScore (text : List Char) (cfg : SceneConfig) : Option ℚ :=
  let nMatches := hitCount text cfg
  if nMatches = 0 then none
  else
    let score : ℚ := (nMatches : ℚ) * cfg.weight
    let match_ratio : ℚ := (nMatches : ℚ) / (cfg.keywords.length : ℚ)
    let avg_match_weight : ℚ := score / (nMatches : ℚ)
    some (match_ratio * (4/5) + min (avg_match_weight / 10) (1/5))

/-- `SceneDetector.detect_scenes`: score every scene with at least one keyword
hit, sort by confidence descending (stable), keep those with confidence
`≥ 0.15`. -/
def detect_scenes (text : List Char) : List (String × ℚ) :=
  let scored := scene_keywords.filterMap
    (fun cfg => (sceneScore text cfg).map (fun s => (cfg.scene, s)))
  (scored.insertionSort (rankDesc Prod.snd)).filter (fun s => (3/20) ≤ s.2)

/-- `SceneDetector.get_scene_name`. -/
def get_scene_name (scene_code : String) : String :=
  if scene_code = "daily_life" then "日常生活"
  else if scene_code = "business" then "商务"
  else if scene_code = "technology" then "科技"
  else if scene_code = "sports" then "体育"
  else if scene_code = "medical" then "医疗"
  else if scene_code = "academic" then "学术"
  else scene_code

end SceneDetector

section Retriever

/-- Word characters for the `\b` boundaries of the whole-word regex search in
`_calculate_relevance`: ASCII alphanumerics, underscore, and CJK ideographs.
(Python's unicode `\w` covers further scripts; no claim under study depends on
the boundary classification, only on the 0.6/0.4 and 0.5/0.3 split it picks.) -/
def isWordChar (c : Char) : Bool :=
  c.isAlphanum || c = '_' || (0x4e00 ≤ c.val && c.val ≤ 0x9fff)

/-- Whether a regex word boundary `\b` matches at position `p` of `t`. -/
def boundaryAt (t : List Char) (p : Nat) : Bool :=
  let right := (t[p]?.map isWordChar).getD false
  let left := if p = 0 then false else (t[p-1]?.map isWordChar).getD false
  left != right

/-- `re.search(r'\b' + re.escape(pat) + r'\b', t)`: an occurrence of the
literal `pat` flanked by word boundaries. -/
def wholeWordMatch (pat t : List Char) : Bool :=
  (List.range (t.length + 1)).any fun i =>
    ((t.drop i).take pat.length == pat) && boundaryAt t i && boundaryAt t (i + pat.length)

/-- An `ExpressionRecord` of a per-scene knowledge document.  The
`translation_<code>` JSON fields are modelled as the `translations`
association list (code `"en"` is the `translation_en` field). -/
structure Expression where
  source : List Char
  variants : List (List Char)
  meaning : List Char
  translations : List (String × List Char)
  translation_hint : List Char
  context : List Char
  example_source : List Char
  example_target : List Char
  cultural_note : List Char
  auto_learned : Bool
  deriving Repr, DecidableEq

/-- A persisted per-scene knowledge document. -/
structure KnowledgeBase where
  scene : String
  description : List Char
  keywords : List (List Char)
  expressions : List Expression
  translation_guidelines : List (List Char)
  deriving Repr, DecidableEq

/-- One entry of the list returned by `KnowledgeRetriever.retrieve`. -/
structure RetrievalResult where
  expression : Expression
  scene : String
  scene_name : String
  relevance_score : ℚ
  source : List Char
  variants : List (List Char)
  deriving Repr, DecidableEq

/-- `KnowledgeRetriever._calculate_relevance`.  `sim` stands for the external
`difflib.SequenceMatcher(None, a, b).ratio()` call (library code, not part of
this repository); its documented contract `0 ≤ sim a b ≤ 1` is assumed where
needed. -/
def calculate_relevance (sim : List Char → List Char → ℚ) (text : List Char)
    (expression : Expression) (keywords : List (List Char)) : ℚ :=
  let source := expression.source
  let s1 : ℚ := if isSub source text then
                  (if wholeWordMatch source text then 3/5 else 2/5) else 0
  let s2 : ℚ := (expression.variants.map (fun v =>
                  if isSub v text then
                    (if wholeWordMatch v text then (1:ℚ)/2 else 3/10) else 0)).sum
  let s3 : ℚ := if source.isEmpty then 0
                else sim source (text.take (2 * source.length)) * (1/5)
  let context_keywords := keywords.filter (fun kw => isSub kw text)
  let s4 : ℚ := if context_keywords.isEmpty then 0
                else min ((context_keywords.length : ℚ) * (1/20)) (1/5)
  min (s1 + s2 + s3 + s4) 1

/-- The list `all_expressions` built by `retrieve` before sorting: for every
resolved scene with a loaded knowledge base, every expression whose relevance
reaches `min_confidence`, in knowledge-base order. -/
def retrieveCandidates (sim : List Char → List Char → ℚ)
    (store : String → Option KnowledgeBase) (text : List Char)
    (scenes : List String) (min_confidence : ℚ) : List RetrievalResult :=
  scenes.flatMap fun scene =>
    match store scene with
    | none => []
    | some kb =>
      kb.expressions.filterMap fun expr =>
        let relevance_score := calculate_relevance sim text expr kb.keywords
        if min_confidence ≤ relevance_score then
          some ⟨expr, scene, get_scene_name scene, relevance_score,
                expr.source, expr.variants⟩
        else none

/-- Scene resolution at the top of `retrieve`: an explicit scene list is used
as given; otherwise scenes are detected and filtered at `min_confidence`. -/
def resolveScenes (text : List Char) (scenes : Option (List String))
    (min_confidence : ℚ) : List String :=
  match scenes with
  | some ss => ss
  | none => ((detect_scenes text).filter (fun s => min_confidence ≤ s.2)).map (·.1)

/-- `KnowledgeRetriever.retrieve`: resolve scenes, score all expressions,
filter, sort by relevance descending (stable), truncate to `top_k`. -/
def retrieve (sim : List Char → List Char → ℚ)
    (store : String → Option KnowledgeBase) (text : List Char)
    (scenes : Option (List String)) (top_k : Nat) (min_confidence : ℚ) :
    List RetrievalResult :=
  let resolved := resolveScenes text scenes min_confidence
  if resolved.isEmpty then []
  else
    ((retrieveCandidates sim store text resolved min_confidence).insertionSort
      (rankDesc RetrievalResult.relevance_score)).take top_k

/-- `KnowledgeRetriever.get_translation_guidelines`: first-seen-order
de-duplicated union of the resolved scenes' guideline lists. -/
def get_translation_guidelines (store : String → Option KnowledgeBase)
    (scenes : List String) : List (List Char) :=
  dedupFirst []
    (scenes.flatMap fun scene =>
      match store scene with
      | none => []
      | some kb => kb.translation_guidelines)

end Retriever

section Arbitrator

/-- The per-engine score record of `_parse_quality_scores` /
`_default_quality_scoring`. -/
structure EngineScore where
  accuracy : ℚ
  fluency : ℚ
  cultural_adaptation : ℚ
  completeness : ℚ
  overall : ℚ
  deriving Repr, DecidableEq

/-- The two-engine `scores` dictionary. -/
structure QualityScores where
  deepl : EngineScore
  deepseek : EngineScore
  deriving Repr, DecidableEq

/-- The fixed weighted combination `0.3·accuracy + 0.25·fluency +
0.25·cultural_adaptation + 0.2·completeness`. -/
def weightedOverall (s : EngineScore) : ℚ :=
  s.accuracy * (3/10) + s.fluency * (1/4) + s.cultural_adaptation * (1/4) +
    s.completeness * (1/5)

/-- The text-feature record built by `_analyze_text_features` (the fields the
arbitrator reads; the word lists of the mixed-language analysis are carried
through unchanged). -/
structure TextFeatures where
  length : Nat
  complexity : String
  cultural_elements : Bool
  technical_terms : Bool
  idioms : Bool
  formality : String
  mixed_language : Bool
  deriving Repr, DecidableEq

/-- The `cultural_indicators` list of `_analyze_text_features`. -/
def cultural_indicators : List (List Char) :=
  ["仨尖儿".data, "坐11路".data, "打酱油".data, "吃瓜".data, "躺平".data,
   "内卷".data, "凡尔赛".data, "yyds".data, "绝绝子".data, "破防".data]

/-- The `technical_indicators` list of `_analyze_text_features`. -/
def technical_indicators : List (List Char) :=
  ["API".data, "HTTP".data, "JSON".data, "XML".data, "数据库".data, "算法".data,
   "编程".data, "代码".data, "CPU".data, "GPU".data, "AI".data, "ML".data,
   "NLP".data]

/-- The `formal_indicators` list of `_analyze_text_features`. -/
def formal_indicators : List (List Char) :=
  ["请".data, "您".data, "敬".data, "谨".data, "此致".data, "敬礼".data]

/-- `MultiEngineTranslator._analyze_text_features`.  `mixedSig` stands for the
external mixed-language segmentation signal
(`MixedLanguageProcessor.preprocess_for_translation(...)['is_mixed_language']`),
which the design document treats as a black-box signal source. -/
def analyze_text_features (mixedSig : List Char → Bool) (text : List Char) :
    TextFeatures :=
  { length := text.length
    complexity := if 200 < text.length then "complex"
                  else if 50 < text.length then "medium" else "simple"
    cultural_elements := cultural_indicators.any (fun w => isSub w text)
    technical_terms := technical_indicators.any (fun w => isSub w text)
    idioms := cultural_indicators.any (fun w => isSub w text)
    formality := if formal_indicators.any (fun w => isSub w text)
                 then "formal" else "neutral"
    mixed_language := mixedSig text }

/-- Which engine a rubric line is currently scoring. -/
inductive Engine
  | deepl
  | deepseek
  deriving Repr, DecidableEq

/-- Update one engine's record inside `QualityScores`. -/
def updateEngine (e : Engine) (f : EngineScore → EngineScore)
    (qs : QualityScores) : QualityScores :=
  match e with
  | .deepl => { qs with deepl := f qs.deepl }
  | .deepseek => { qs with deepseek := f qs.deepseek }

/-- The `scores` dictionary as initialised at the top of
`_parse_quality_scores` (every field `0.5`). -/
def initScores : QualityScores :=
  ⟨⟨1/2, 1/2, 1/2, 1/2, 1/2⟩, ⟨1/2, 1/2, 1/2, 1/2, 1/2⟩⟩

/-- The value `float(line.split(':')[1].strip())` of a rubric line, with `pf`
standing for Python's `float()` string parser (`none` models `ValueError`). -/
def fieldValue (pf : List Char → Option ℚ) (l : List Char) : Option ℚ :=
  match splitOnChar ':' l with
  | _ :: second :: _ => pf (stripChars second)
  | _ => none

/-- The line loop of `_parse_quality_scores`.  Returns the scores accumulated
so far together with `true` when every line was processed; a `float()` failure
aborts the loop (the `except` branch), returning the partially updated scores
with `false`. -/
def parseLines (pf : List Char → Option ℚ) :
    List (List Char) → QualityScores → Option Engine → QualityScores × Bool
  | [], qs, _ => (qs, true)
  | line :: rest, qs, cur =>
    let l := stripChars line
    if isSub "DeepL评分:".data l then parseLines pf rest qs (some .deepl)
    else if isSub "DeepSeek评分:".data l then parseLines pf rest qs (some .deepseek)
    else
      match cur with
      | none => parseLines pf rest qs cur
      | some e =>
        if isSub [':'] l then
          if isSub "准确性:".data l then
            match fieldValue pf l with
            | some v => parseLines pf rest (updateEngine e (fun s => { s with accuracy := v }) qs) cur
            | none => (qs, false)
          else if isSub "流畅性:".data l then
            match fieldValue pf l with
            | some v => parseLines pf rest (updateEngine e (fun s => { s with fluency := v }) qs) cur
            | none => (qs, false)
          else if isSub "文化适应性:".data l then
            match fieldValue pf l with
            | some v => parseLines pf rest (updateEngine e (fun s => { s with cultural_adaptation := v }) qs) cur
            | none => (qs, false)
          else if isSub "完整性:".data l then
            match fieldValue pf l with
            | some v => parseLines pf rest (updateEngine e (fun s => { s with completeness := v }) qs) cur
            | none => (qs, false)
          else parseLines pf rest qs cur
        else parseLines pf rest qs cur

/-- The final overall-recomputation loop of `_parse_quality_scores`. -/
def recomputeOverall (qs : QualityScores) : QualityScores :=
  ⟨{ qs.deepl with overall := weightedOverall qs.deepl },
   { qs.deepseek with overall := weightedOverall qs.deepseek }⟩

/-- `MultiEngineTranslator._parse_quality_scores`: parse the rubric text line
by line; when the loop completes, recompute both overall scores from the fixed
weights; when a `float()` conversion raises, the exception handler leaves the
partially updated scores as they are (overall not recomputed). -/
def parse_quality_scores (pf : List Char → Option ℚ) (analysis_result : List Char) :
    QualityScores :=
  let r := parseLines pf (splitOnChar '\n' analysis_result) initScores none
  if r.2 then recomputeOverall r.1 else r.1

/-- `MultiEngineTranslator._default_quality_scoring`: the feature-based
default table with its conditional `+0.1` adjustments. -/
def default_quality_scoring (tf : TextFeatures) : QualityScores :=
  let base : QualityScores :=
    ⟨⟨7/10, 4/5, 3/5, 7/10, 7/10⟩, ⟨7/10, 7/10, 4/5, 7/10, 7/10⟩⟩
  let adj1 :=
    if tf.technical_terms then
      { base with deepl := { base.deepl with accuracy := base.deepl.accuracy + 1/10,
                                             overall := base.deepl.overall + 1/10 } }
    else if tf.cultural_elements then
      { base with deepseek :=
          { base.deepseek with cultural_adaptation := base.deepseek.cultural_adaptation + 1/10,
                               overall := base.deepseek.overall + 1/10 } }
    else base
  if tf.formality = "formal" then
    { adj1 with deepl := { adj1.deepl with fluency := adj1.deepl.fluency + 1/10,
                                           overall := adj1.deepl.overall + 1/10 } }
  else adj1

/-- `MultiEngineTranslator._intelligent_selection`: large score gap picks the
higher engine; otherwise the fixed-order feature tie-break; otherwise the
higher overall score with ties going to DeepL. -/
def intelligent_selection (deepl_translation deepseek_translation : List Char)
    (quality_scores : QualityScores) (text_features : TextFeatures) :
    List Char × String × ℚ :=
  let deepl_score := quality_scores.deepl.overall
  let deepseek_score := quality_scores.deepseek.overall
  if 1/5 < |deepl_score - deepseek_score| then
    if deepseek_score < deepl_score then
      (deepl_translation, "deepl_selected", deepl_score)
    else
      (deepseek_translation, "deepseek_selected", deepseek_score)
  else if text_features.mixed_language then
    (deepseek_translation, "deepseek_mixed_language", 9/10)
  else if text_features.cultural_elements || text_features.idioms then
    (deepseek_translation, "deepseek_cultural", 9/10)
  else if text_features.technical_terms then
    (deepl_translation, "deepl_technical", 9/10)
  else if text_features.formality = "formal" then
    (deepl_translation, "deepl_formal", 9/10)
  else if deepseek_score ≤ deepl_score then
    (deepl_translation, "deepl_default", deepl_score)
  else
    (deepseek_translation, "deepseek_default", deepseek_score)

/-- Python truthiness of an optional translation string: `None` and the empty
string are falsy. -/
def truthy : Option (List Char) → Bool
  | none => false
  | some s => !s.isEmpty

/-- `MultiEngineTranslator._select_best_translation`.  The two translations
are `text | null` results of the provider adapters.  `rubric` is the result of
the LLM rubric-scoring call `_call_deepseek_api(analysis_prompt)` (`none`
models both a `None` return and a raised-and-caught request error, which fall
back to the feature-based default table). -/
def select_best_translation (mixedSig : List Char → Bool)
    (pf : List Char → Option ℚ) (rubric : Option (List Char))
    (original_text : List Char)
    (deepl_translation deepseek_translation : Option (List Char)) :
    List Char × String × ℚ :=
  if truthy deepl_translation && !truthy deepseek_translation then
    (deepl_translation.getD [], "deepl_only", 4/5)
  else if truthy deepseek_translation && !truthy deepl_translation then
    (deepseek_translation.getD [], "deepseek_only", 4/5)
  else if !truthy deepl_translation && !truthy deepseek_translation then
    ([], "failed", 0)
  else
    let text_features := analyze_text_features mixedSig original_text
    let quality_scores :=
      match rubric with
      | some r => parse_quality_scores pf r
      | none => default_quality_scoring text_features
    intelligent_selection (deepl_translation.getD []) (deepseek_translation.getD [])
      quality_scores text_features

end Arbitrator

section PromptComposer

/-- Python `sep.join(parts)`. -/
def joinSep (sep : List Char) : List (List Char) → List Char
  | [] => []
  | [x] => x
  | x :: xs => x ++ sep ++ joinSep sep xs

/-- The base header `请将以下{source_lang}文本翻译成{target_lang}。\n\n`. -/
def baseHeader (source_lang target_lang : String) : List Char :=
  "请将以下".data ++ source_lang.data ++ "文本翻译成".data ++ target_lang.data ++
    "。\n\n".data

/-- The fixed translation-requirements block of
`RAGPromptEnhancer.generate_enhanced_prompt`. -/
def requirementsBlock : List Char :=
  ("【翻译要求】\n" ++
   "1. 仔细分析文本中的场景特定表达，参考上述知识库提供的翻译指导\n" ++
   "2. 对于文化特定表达，要理解其实际含义而非字面意思\n" ++
   "3. 确保翻译准确且符合目标语言习惯\n" ++
   "4. 保持原文的语调和情感\n" ++
   "5. 只返回翻译结果，不要添加解释\n\n").data

/-- One numbered knowledge entry of the `【相关知识库】` section; `fmt2` stands
for Python's `f"{x:.2f}"` float formatting. -/
def renderEntry (fmt2 : ℚ → List Char) (target_lang : String) (idx : Nat)
    (item : RetrievalResult) : List Char :=
  let expr := item.expression
  let langKey := (target_lang.toLower.take 2)
  let tkey := (alookup langKey expr.translations).getD []
  let ten := (alookup "en" expr.translations).getD []
  (toString idx).data ++ ". 场景：".data ++ item.scene_name.data ++
    "（相关性：".data ++ fmt2 item.relevance_score ++ "）\n".data ++
  "   特殊表达：\"".data ++ expr.source ++ "\"\n".data ++
  (if expr.variants.isEmpty then [] else
    "   变体：".data ++ joinSep ", ".data expr.variants ++ "\n".data) ++
  (if expr.meaning.isEmpty then [] else
    "   实际含义：".data ++ expr.meaning ++ "\n".data) ++
  (if !tkey.isEmpty || !ten.isEmpty then
    "   翻译建议：".data ++ (if !tkey.isEmpty then tkey else ten) ++ "\n".data
   else []) ++
  (if expr.translation_hint.isEmpty then [] else
    "   翻译提示：".data ++ expr.translation_hint ++ "\n".data) ++
  (if expr.context.isEmpty then [] else
    "   上下文：".data ++ expr.context ++ "\n".data) ++
  (if !expr.example_source.isEmpty && !expr.example_target.isEmpty then
    "   示例：\n".data ++ "     原文：".data ++ expr.example_source ++ "\n".data ++
      "     译文：".data ++ expr.example_target ++ "\n".data
   else []) ++
  "\n".data

/-- The `enumerate(retrieved_knowledge, 1)` loop. -/
def renderEntries (fmt2 : ℚ → List Char) (target_lang : String) (idx : Nat) :
    List RetrievalResult → List Char
  | [] => []
  | r :: rs => renderEntry fmt2 target_lang idx r ++
               renderEntries fmt2 target_lang (idx + 1) rs

/-- `RAGPromptEnhancer.generate_enhanced_prompt`: base header, then (with
`use_rag`) the optional scene / knowledge / guideline sections, the fixed
requirements block, and the literal source text. -/
def generate_enhanced_prompt (fmt2 : ℚ → List Char)
    (sim : List Char → List Char → ℚ) (store : String → Option KnowledgeBase)
    (text : List Char) (source_lang target_lang : String) (use_rag : Bool)
    (top_k : Nat) : List Char :=
  if !use_rag then baseHeader source_lang target_lang ++ "原文：".data ++ text
  else
    let detected_scenes := detect_scenes text
    let retrieved_knowledge := retrieve sim store text none top_k (3/20)
    let sceneSection :=
      if detected_scenes.isEmpty then [] else
        "【场景识别】\n".data ++ "检测到以下场景：".data ++
          joinSep ", ".data ((detected_scenes.take 3).map (fun s =>
            (get_scene_name s.1).data ++ " (置信度: ".data ++ fmt2 s.2 ++ ")".data)) ++
          "\n\n".data
    let knowledgeSection :=
      if retrieved_knowledge.isEmpty then [] else
        "【相关知识库】\n".data ++ "以下是与文本相关的场景知识，请参考：\n\n".data ++
          renderEntries fmt2 target_lang 1 retrieved_knowledge
    let guidelineSection :=
      if detected_scenes.isEmpty then [] else
        let guidelines := get_translation_guidelines store (detected_scenes.map (·.1))
        if guidelines.isEmpty then [] else
          "【翻译指导原则】\n".data ++
            ((guidelines.take 5).flatMap (fun g => "- ".data ++ g ++ "\n".data)) ++
            "\n".data
    baseHeader source_lang target_lang ++ sceneSection ++ knowledgeSection ++
      guidelineSection ++ requirementsBlock ++ ("原文：".data ++ text)

/-- The `【翻译要求】` marker searched for by the mixed-language insertion. -/
def reqMarker : List Char := "【翻译要求】".data

/-- The mixed-language notice inserted before the requirements section. -/
def mixedNotice : List Char :=
  ("\n注意：文本包含混合语言内容，请按以下要求处理：\n" ++
   "1. 保持英语专有名词、缩写、品牌名等不翻译\n" ++
   "2. 确保翻译自然流畅，符合目标语言习惯\n" ++
   "3. 对于技术术语，优先使用目标语言的标准译法\n\n").data

/-- The mixed-language notice of the (dead) no-marker fallback branch. -/
def mixedNoticeTail : List Char :=
  ("\n\n注意：文本包含混合语言内容，请按以下要求处理：\n" ++
   "1. 保持英语专有名词、缩写、品牌名等不翻译\n" ++
   "2. 确保翻译自然流畅，符合目标语言习惯\n").data

/-- `EnhancedDeepSeekClient._generate_enhanced_prompt`, RAG branch: build the
RAG prompt, then, when the external mixed-language signal fires, insert the
mixed-language notice immediately before the `【翻译要求】` section via string
replacement. -/
def client_generate_enhanced_prompt (mixedSig : List Char → Bool)
    (fmt2 : ℚ → List Char) (sim : List Char → List Char → ℚ)
    (store : String → Option KnowledgeBase) (text : List Char)
    (source_lang target_lang : String) (rag_top_k : Nat) : List Char :=
  let rag_prompt :=
    generate_enhanced_prompt fmt2 sim store text source_lang target_lang true rag_top_k
  if mixedSig text then
    if isSub reqMarker rag_prompt then
      replaceAll '【' "翻译要求】".data (mixedNotice ++ reqMarker) rag_prompt
    else
      replaceAll '\n' ("原文：".data ++ text)
        (mixedNoticeTail ++ "\n原文：".data ++ text) rag_prompt
  else rag_prompt

end PromptComposer

section Learner

/-- Characters of the `[一-鿿]` regex class. -/
def isCJK (c : Char) : Bool := 0x4e00 ≤ c.val && c.val ≤ 0x9fff

/-- The greedy match attempted at the head of a list: up to six contiguous
CJK characters. -/
def cjkChunk (l : List Char) : List Char := (l.takeWhile isCJK).take 6

/-- `re.findall(r'[一-鿿]{2,6}', text)`: scan left to right; at each
CJK character take greedily up to six contiguous CJK characters; a match needs
at least two, otherwise the scan advances one character. -/
def findallCJK : List Char → List (List Char)
  | [] => []
  | c :: cs =>
    if isCJK c then
      if _h : 2 ≤ (cjkChunk (c :: cs)).length then
        cjkChunk (c :: cs) :: findallCJK ((c :: cs).drop (cjkChunk (c :: cs)).length)
      else findallCJK cs
    else findallCJK cs
  termination_by l => l.length
  decreasing_by
  all_goals simp only [List.length_drop, List.length_cons]
  all_goals omega

/-- Python `text.find(sub)`: index of the first occurrence, `-1` if absent. -/
def pyFind (p t : List Char) : Int :=
  match (List.range (t.length + 1)).find? (fun i => (t.drop i).take p.length == p) with
  | some i => (i : Int)
  | none => -1

/-- The colloquial-suffix character set of `_extract_potential_expressions`. -/
def colloquialChars : List Char := ['儿', '子', '打', '坐', '走']

/-- A candidate expression as built by `_extract_potential_expressions`. -/
structure Candidate where
  text : List Char
  confidence : ℚ
  position : Int
  deriving Repr, DecidableEq

/-- `KnowledgeBaseLearner._extract_potential_expressions`: CJK phrases of the
original text not among the existing sources, scored by the fixed heuristic,
sorted by confidence descending (stable).  The translated text is part of the
signature but never read by the code. -/
def extract_potential_expressions (original_text _translated_text : List Char)
    (existing_expressions : List (List Char)) : List Candidate :=
  let phrases := findallCJK original_text
  let candidates := phrases.filterMap fun phrase =>
    if existing_expressions.contains phrase then none
    else
      let c₁ : ℚ := 3/10
      let c₂ : ℚ := if colloquialChars.any (fun ch => phrase.contains ch)
                    then c₁ + 3/10 else c₁
      let c₃ : ℚ := if phrase.length ≤ 4 then c₂ + 1/5 else c₂
      some ⟨phrase, min c₃ 1, pyFind phrase original_text⟩
  candidates.insertionSort (rankDesc Candidate.confidence)

/-- A staged candidate (the dictionary built by `detect_new_expression` and
enriched by `learn_from_translation`).  Wall-clock `detected_at` omitted. -/
structure NewExpr where
  source : List Char
  scene : String
  translated_text : List Char
  original_text : List Char
  confidence : ℚ
  ai_analysis : Option (List Char)
  translation_en : List Char
  meaning : Option (List Char)
  deriving Repr, DecidableEq

/-- `KnowledgeBaseLearner.detect_new_expression`: detect scenes, take the
highest-confidence one; give up when it has no loaded knowledge base; extract
candidates against that base's sources; return the best one. -/
def detect_new_expression (store : String → Option KnowledgeBase)
    (original_text translated_text : List Char) : Option NewExpr :=
  match detect_scenes original_text with
  | [] => none
  | s :: _ =>
    match store s.1 with
    | none => none
    | some kb =>
      let existing_expressions := kb.expressions.map (·.source)
      match extract_potential_expressions original_text translated_text
              existing_expressions with
      | [] => none
      | best :: _ =>
        some { source := best.text, scene := s.1,
               translated_text := translated_text,
               original_text := original_text, confidence := best.confidence,
               ai_analysis := none, translation_en := [], meaning := none }

/-- The learner's mutable state: the on-disk scene files, the loader's
in-memory snapshot, and the staged-candidate buffer (`pending_updates`), all
in insertion order. -/
structure LearnerCtx where
  files : List (String × KnowledgeBase)
  loaded : List (String × KnowledgeBase)
  pending : List (String × List NewExpr)
  deriving Repr, DecidableEq

/-- Staging a learned expression under its scene
(`pending_updates[scene].append`). -/
def stagePending (scene : String) (e : NewExpr)
    (pending : List (String × List NewExpr)) : List (String × List NewExpr) :=
  match alookup scene pending with
  | none => pending ++ [(scene, [e])]
  | some es => aupdate scene (es ++ [e]) pending

/-- The empty knowledge-base shell created by `save_updates` for a scene with
no file. -/
def defaultShell (scene : String) : KnowledgeBase :=
  ⟨scene, (get_scene_name scene).data, [], [], []⟩

/-- The standard-format `expression_entry` written by `save_updates` for a
staged candidate (field defaults as in the code; `learned_at` omitted). -/
def toEntry (e : NewExpr) : Expression :=
  { source := e.source
    variants := []
    meaning := e.meaning.getD []
    translations := [("en", e.translation_en)]
    translation_hint := "AI自动学习".data
    context := "待分类".data
    example_source := e.original_text
    example_target := e.translated_text
    cultural_note := e.ai_analysis.getD "自动学习".data
    auto_learned := true }

/-- The per-candidate loop of `save_updates`: skip candidates whose source is
already present, append the rest, extend the keyword list. -/
def mergeExpressions (kb : KnowledgeBase) :
    List NewExpr → List (List Char) → KnowledgeBase
  | [], _ => kb
  | e :: rest, existing_sources =>
    if existing_sources.contains e.source then
      mergeExpressions kb rest existing_sources
    else
      let kb' : KnowledgeBase :=
        { kb with
          expressions := kb.expressions ++ [toEntry e]
          keywords := if kb.keywords.contains e.source then kb.keywords
                      else kb.keywords ++ [e.source] }
      mergeExpressions kb' rest (e.source :: existing_sources)

/-- One scene's merged knowledge base: the on-disk file (or a fresh shell)
with the staged candidates folded in. -/
def mergeScene (files : List (String × KnowledgeBase)) (scene : String)
    (expressions : List NewExpr) : KnowledgeBase :=
  let kb := (alookup scene files).getD (defaultShell scene)
  mergeExpressions kb expressions (kb.expressions.map (·.source))

/-- The scene loop of `save_updates`.  All iterations run inside one
`try`/`except`: a failing write (`wf scene = true`) aborts the whole loop —
already-written scenes keep their new files, the staged buffer is not cleared
and the loader is not reloaded, and `False` is returned.  On completion the
buffer is cleared and the loader reloads the (new) files. -/
def saveGo (wf : String → Bool) (ctx₀ : LearnerCtx) :
    List (String × KnowledgeBase) → List (String × List NewExpr) →
    LearnerCtx × Bool
  | files, [] => (⟨files, files, []⟩, true)
  | files, (scene, exprs) :: rest =>
    let kb' := mergeScene files scene exprs
    if wf scene then (⟨files, ctx₀.loaded, ctx₀.pending⟩, false)
    else saveGo wf ctx₀ (aupdate scene kb' files) rest

/-- `KnowledgeBaseLearner.save_updates`.  `wf scene = true` models an
exception while writing that scene's file (the write itself is taken as
atomic: the claim under study concerns the other scenes' files). -/
def save_updates (wf : String → Bool) (ctx : LearnerCtx) : LearnerCtx × Bool :=
  if ctx.pending.isEmpty then (ctx, true)
  else saveGo wf ctx ctx.files ctx.pending

/-- The enrichment `learn_from_translation` applies to a detected expression:
record the (truthy) AI analysis, the English translation, and the extracted
meaning.  `em` stands for the regex-based `_extract_meaning_from_analysis`
(its output is carried as data only). -/
def enrich (em : List Char → Option (List Char))
    (ai_analysis : Option (List Char)) (translated_text : List Char)
    (d : NewExpr) : NewExpr :=
  let ai := ai_analysis.bind (fun a => if a.isEmpty then none else some a)
  { d with
    ai_analysis := ai
    translation_en := translated_text
    meaning := ai.bind em }

/-- `KnowledgeBaseLearner.learn_from_translation`.  `wf` is the write-failure
model passed on to the auto-save call. -/
def learn_from_translation (em : List Char → Option (List Char))
    (wf : String → Bool) (auto_save : Bool) (ctx : LearnerCtx)
    (original_text translated_text : List Char)
    (ai_analysis : Option (List Char)) : Option NewExpr × LearnerCtx :=
  match detect_new_expression (fun s => alookup s ctx.loaded)
          original_text translated_text with
  | none => (none, ctx)
  | some d =>
    let e : NewExpr := enrich em ai_analysis translated_text d
    let ctx' : LearnerCtx := { ctx with pending := stagePending e.scene e ctx.pending }
    if auto_save then (some e, (save_updates wf ctx').1) else (some e, ctx')

/-- Number of persisted expression records with the given source phrase. -/
def countSource (p : List Char) (kb : KnowledgeBase) : Nat :=
  (kb.expressions.filter (fun e => e.source == p)).length

/-- Test fixture for the variant-exclusion counterexample: a `daily_life`
knowledge base whose only expression lists `吃瓜群众` as a variant (but not as
a source). -/
def variantKB : KnowledgeBase :=
  ⟨"daily_life", "日常生活".data, [],
   [⟨"打酱油".data, ["吃瓜群众".data], "路过".data, [("en", "passing by".data)],
     [], [], [], [], [], false⟩], []⟩

/-- The file map after merging a sequence of staged scenes in order (the
closed form of `saveGo`'s successful iterations). -/
def mergeAllScenes (files : List (String × KnowledgeBase))
    (ps : List (String × List NewExpr)) : List (String × KnowledgeBase) :=
  ps.foldl (fun fs p => aupdate p.1 (mergeScene fs p.1 p.2) fs) files

/-- Test fixture for the idempotence round-trip: a learner whose only scene
file is an empty `daily_life` shell, with the loader synchronised and the
staging buffer empty. -/
def syncCtx : LearnerCtx :=
  ⟨[("daily_life", defaultShell "daily_life")],
   [("daily_life", defaultShell "daily_life")], []⟩

/-- The expression staged when learning `打牌去 → go` from `syncCtx` (the
colloquial character `打` and the length bonus both apply). -/
def daPaiQuExpr : NewExpr :=
  ⟨"打牌去".data, "daily_life", "go".data, "打牌去".data,
   min ((3:ℚ)/10 + 3/10 + 1/5) 1, none, "go".data, none⟩

end Learner

section Lemmas

open List

lemma isPrefixOf_self_append (p X : List Char) : p.isPrefixOf (p ++ X) = true := by
  induction p with
  | nil => simp [List.isPrefixOf]
  | cons c cs ih => simp [List.isPrefixOf, ih]

lemma isSub_self_append (p X : List Char) : isSub p (p ++ X) = true := by
  cases p with
  | nil => cases X <;> simp [isSub]
  | cons c cs =>
    simp only [List.cons_append, isSub, Bool.or_eq_true]
    exact Or.inl (isPrefixOf_self_append (c :: cs) X)

lemma isSub_append_left (pre l p : List Char) (h : isSub p l = true) :
    isSub p (pre ++ l) = true := by
  induction pre with
  | nil => simpa using h
  | cons c cs ih =>
    cases p with
    | nil => simp [isSub] at h ⊢
    | cons q qs => simp only [List.cons_append, isSub, Bool.or_eq_true]; exact Or.inr ih

/-- Decomposition of a two-element sublist of `s₁ ++ x :: s₂`. -/
lemma pair_sublist_append_cons {a b x : α} {s₁ s₂ : List α}
    (h : [a, b] <+ s₁ ++ x :: s₂) :
    [a, b] <+ s₁ ++ s₂ ∨ (a ∈ s₁ ∧ b = x) ∨ (a = x ∧ b ∈ s₂) := by
  rcases List.sublist_append_iff.mp h with ⟨u, v, huv, hu, hv⟩
  match u, huv with
  | [], huv =>
    have hv₂ : v = [a, b] := by simpa using huv.symm
    subst hv₂
    rcases List.sublist_cons_iff.mp hv with h₂ | ⟨t, ht, hts⟩
    · exact Or.inl (h₂.trans (List.sublist_append_right s₁ s₂))
    · obtain ⟨rfl, rfl⟩ : a = x ∧ t = [b] := by
        injection ht with h₁ h₂
        exact ⟨h₁, h₂.symm⟩
      exact Or.inr (Or.inr ⟨rfl, List.singleton_sublist.mp hts⟩)
  | [c], huv =>
    obtain ⟨rfl, rfl⟩ : c = a ∧ v = [b] := by
      injection huv with h₁ h₂
      exact ⟨h₁.symm, h₂.symm⟩
    rcases List.sublist_cons_iff.mp hv with h₂ | ⟨t, ht, _⟩
    · exact Or.inl (Sublist.append hu h₂)
    · obtain ⟨rfl, -⟩ : b = x ∧ t = [] := by
        injection ht with h₁ h₂
        exact ⟨h₁, h₂.symm⟩
      exact Or.inr (Or.inl ⟨List.singleton_sublist.mp hu, rfl⟩)
  | c :: d :: rest, huv =>
    obtain ⟨rfl, rfl, hrv⟩ : a = c ∧ b = d ∧ rest ++ v = [] := by
      injection huv with h₁ h₂
      injection h₂ with h₃ h₄
      exact ⟨h₁, h₃, h₄.symm⟩
    obtain ⟨rfl, -⟩ := List.append_eq_nil.mp hrv
    exact Or.inl (hu.trans (List.sublist_append_left s₁ s₂))

/-- Converse stability of `insertionSort` under `rankDesc`: two elements of
equal key appearing in this order in the sorted output already appear in this
order in the input. -/
lemma pair_sublist_of_insertionSort (key : α → ℚ) :
    ∀ (l : List α) {a b : α}, key a = key b →
      [a, b] <+ l.insertionSort (rankDesc key) → [a, b] <+ l := by
  intro l
  induction l with
  | nil => intro a b _ h; simp at h
  | cons x xs ih =>
    intro a b hab h
    rw [List.insertionSort, List.orderedInsert_eq_take_drop] at h
    rcases pair_sublist_append_cons h with h₂ | ⟨ha, hb⟩ | ⟨ha, hb⟩
    · rw [List.takeWhile_append_dropWhile] at h₂
      exact (ih hab h₂).cons x
    · have hwa := List.mem_takeWhile_imp ha
      simp only [rankDesc, decide_not, Bool.not_eq_true', decide_eq_false_iff_not] at hwa
      exact absurd (le_of_eq (by rw [hab, hb])) hwa
    · subst ha
      have hbs : b ∈ (xs.insertionSort (rankDesc key)).dropWhile
          (fun b => decide ¬(rankDesc key a b)) := hb
      have hbxs : b ∈ xs :=
        (List.perm_insertionSort (rankDesc key) xs).mem_iff.mp
          ((List.dropWhile_sublist _).subset hbs)
      exact (List.singleton_sublist.mpr hbxs).cons₂ a

/-- Closed form of the `save_updates` scene loop: scenes before the first
failing write are merged and written; on a failure the loop stops with the
original staged buffer and loader snapshot; on full success the buffer is
cleared and the loader reloads the new files. -/
lemma saveGo_spec (wf : String → Bool) (ctx₀ : LearnerCtx) :
    ∀ (pending : List (String × List NewExpr)) (files : List (String × KnowledgeBase)),
      saveGo wf ctx₀ files pending =
        if pending.all (fun p => !wf p.1)
        then (⟨mergeAllScenes files pending, mergeAllScenes files pending, []⟩, true)
        else (⟨mergeAllScenes files (pending.takeWhile (fun p => !wf p.1)),
               ctx₀.loaded, ctx₀.pending⟩, false) := by
  intro pending
  induction pending with
  | nil => intro files; simp [saveGo, mergeAllScenes]
  | cons p rest ih =>
    intro files
    obtain ⟨scene, exprs⟩ := p
    cases hw : wf scene with
    | true => simp [saveGo, hw, mergeAllScenes]
    | false =>
      have h₁ : saveGo wf ctx₀ files ((scene, exprs) :: rest) =
          saveGo wf ctx₀ (aupdate scene (mergeScene files scene exprs) files) rest := by
        simp [saveGo, hw]
      rw [h₁, ih]
      by_cases hall : (rest.all fun p => !wf p.1) = true
      · rw [if_pos hall, if_pos (by simp [hw, hall])]
        simp [mergeAllScenes]
      · rw [if_neg hall, if_neg (by simp [hw, hall])]
        simp [mergeAllScenes, List.takeWhile_cons, hw]

/-- An occurrence of the pattern somewhere in `l` survives as the literal
replacement text somewhere in `replaceAll`'s output. -/
lemma replaceAll_of_isSub (p : Char) (ps rep : List Char) :
    ∀ l : List Char, isSub (p :: ps) l = true →
      ∃ A B, replaceAll p ps rep l = A ++ rep ++ B := by
  intro l
  induction l using replaceAll.induct p ps rep with
  | case1 => intro h; simp [isSub] at h
  | case2 c cs hpre ih =>
    intro _
    refine ⟨[], replaceAll p ps rep (cs.drop ps.length), ?_⟩
    simp [replaceAll, hpre]
  | case3 c cs hpre ih =>
    intro h
    simp only [isSub, hpre, Bool.false_or] at h
    obtain ⟨A, B, hAB⟩ := ih h
    exact ⟨c :: A, B, by simp [replaceAll, hpre, hAB]⟩

lemma isSub_of_isPrefixOf (p l : List Char) (h : p.isPrefixOf l = true) :
    isSub p l = true := by
  cases l with
  | nil =>
    cases p with
    | nil => rfl
    | cons c cs => simp [List.isPrefixOf] at h
  | cons c cs => simp [isSub, h]

lemma isSub_cons_of_isSub (c : Char) (p cs : List Char) (h : isSub p cs = true) :
    isSub p (c :: cs) = true := by
  simp [isSub, h]

lemma isPrefixOf_take_takeWhile (q : Char → Bool) (n : Nat) :
    ∀ l : List Char, ((l.takeWhile q).take n).isPrefixOf l = true := by
  induction n with
  | zero => intro l; simp [List.isPrefixOf]
  | succ n ih =>
    intro l
    cases l with
    | nil => simp [List.isPrefixOf]
    | cons c cs =>
      by_cases hq : q c
      · simp only [List.takeWhile_cons, hq, if_pos, List.take_succ_cons,
          List.isPrefixOf]
        simpa using ih cs
      · simp [List.takeWhile_cons, hq, List.isPrefixOf]

/-- Every phrase found by the CJK regex scan has length 2–6, consists of CJK
characters, and occurs contiguously in the scanned text. -/
lemma findallCJK_mem :
    ∀ l ph, ph ∈ findallCJK l →
      2 ≤ ph.length ∧ ph.length ≤ 6 ∧ ph.all isCJK = true ∧ isSub ph l = true := by
  intro l
  induction l using findallCJK.induct with
  | case1 => intro ph h; simp [findallCJK] at h
  | case2 c cs hc h ih =>
    intro ph hm
    rw [findallCJK] at hm
    simp only [hc, if_pos, h, dif_pos, List.mem_cons] at hm
    rcases hm with rfl | hm
    · refine ⟨h, ?_, ?_, ?_⟩
      · simp [cjkChunk, List.length_take_le]
      · rw [List.all_eq_true]
        intro x hx
        exact List.mem_takeWhile_imp ((List.take_sublist _ _).subset hx)
      · exact isSub_of_isPrefixOf _ _ (isPrefixOf_take_takeWhile isCJK 6 (c :: cs))
    · obtain ⟨h₁, h₂, h₃, h₄⟩ := ih ph hm
      refine ⟨h₁, h₂, h₃, ?_⟩
      calc isSub ph (c :: cs)
          = isSub ph (((c :: cs).take ((cjkChunk (c :: cs)).length)) ++
              ((c :: cs).drop ((cjkChunk (c :: cs)).length))) := by
            rw [List.take_append_drop]
        _ = true := isSub_append_left _ _ _ h₄
  | case3 c cs hc h ih =>
    intro ph hm
    rw [findallCJK] at hm
    simp only [hc, if_pos, h, dif_neg] at hm
    obtain ⟨h₁, h₂, h₃, h₄⟩ := ih ph hm
    exact ⟨h₁, h₂, h₃, isSub_cons_of_isSub c ph cs h₄⟩
  | case4 c cs hc ih =>
    intro ph hm
    rw [findallCJK] at hm
    simp only [hc, if_neg, Bool.false_eq_true] at hm
    obtain ⟨h₁, h₂, h₃, h₄⟩ := ih ph hm
    exact ⟨h₁, h₂, h₃, isSub_cons_of_isSub c ph cs h₄⟩

/-- Inversion for extraction candidates: the phrase came from the regex scan,
was not among the existing sources, and carries the heuristic confidence. -/
lemma extract_mem (original_text translated_text : List Char)
    (ex : List (List Char)) (c : Candidate)
    (h : c ∈ extract_potential_expressions original_text translated_text ex) :
    c.text ∈ findallCJK original_text ∧ ex.contains c.text = false ∧
      c.confidence = min ((3:ℚ)/10 +
        (if colloquialChars.any (fun ch => c.text.contains ch) then (3:ℚ)/10 else 0) +
        (if c.text.length ≤ 4 then (1:ℚ)/5 else 0)) 1 := by
  simp only [extract_potential_expressions, List.mem_insertionSort] at h
  obtain ⟨ph, hph, heq⟩ := List.mem_filterMap.mp h
  by_cases hcon : ex.contains ph
  · rw [if_pos hcon] at heq
    exact absurd heq (by simp)
  · rw [if_neg hcon] at heq
    obtain rfl := (Option.some.injEq _ _).mp heq
    refine ⟨hph, by simpa using hcon, ?_⟩
    split_ifs <;> norm_num

/-- Completeness of extraction: every scanned phrase not among the existing
sources shows up as a candidate. -/
lemma extract_complete (original_text translated_text : List Char)
    (ex : List (List Char)) (ph : List Char)
    (hph : ph ∈ findallCJK original_text) (hcon : ex.contains ph = false) :
    ∃ c ∈ extract_potential_expressions original_text translated_text ex,
      c.text = ph := by
  refine ⟨⟨ph, min (if ph.length ≤ 4
      then (if colloquialChars.any (fun ch => ph.contains ch)
            then (3:ℚ)/10 + 3/10 else 3/10) + 1/5
      else (if colloquialChars.any (fun ch => ph.contains ch)
            then (3:ℚ)/10 + 3/10 else 3/10)) 1,
    pyFind ph original_text⟩, ?_, rfl⟩
  simp only [extract_potential_expressions, List.mem_insertionSort]
  refine List.mem_filterMap.mpr ⟨ph, hph, ?_⟩
  rw [if_neg (by rw [hcon]; simp)]

/-- Inversion of `detect_new_expression` when it reports a new expression. -/
lemma detect_some (store : String → Option KnowledgeBase)
    (original_text translated_text : List Char) (d : NewExpr)
    (h : detect_new_expression store original_text translated_text = some d) :
    ∃ s rest kb c crest,
      detect_scenes original_text = s :: rest ∧ store s.1 = some kb ∧
      extract_potential_expressions original_text translated_text
        (kb.expressions.map (·.source)) = c :: crest ∧
      d = ⟨c.text, s.1, translated_text, original_text, c.confidence,
           none, [], none⟩ := by
  cases hds : detect_scenes original_text with
  | nil => simp [detect_new_expression, hds] at h
  | cons s rest =>
    cases hst : store s.1 with
    | none => simp [detect_new_expression, hds, hst] at h
    | some kb =>
      cases hex : extract_potential_expressions original_text translated_text
          (kb.expressions.map (·.source)) with
      | nil => simp [detect_new_expression, hds, hst, hex] at h
      | cons c crest =>
        simp only [detect_new_expression, hds, hst, hex] at h
        exact ⟨s, rest, kb, c, crest, rfl, hst, hex,
          ((Option.some.injEq _ _).mp h).symm⟩

/-- Characterisation of a successful (staging-only) learning step. -/
lemma learn_eq (em : List Char → Option (List Char)) (wf : String → Bool)
    (ctx : LearnerCtx) (original_text translated_text : List Char)
    (ai : Option (List Char)) (d : NewExpr)
    (hdet : detect_new_expression (fun s => alookup s ctx.loaded)
        original_text translated_text = some d) :
    learn_from_translation em wf false ctx original_text translated_text ai =
      (some (enrich em ai translated_text d),
       { ctx with pending := (stagePending (enrich em ai translated_text d).scene
           (enrich em ai translated_text d) ctx.pending) }) := by
  simp [learn_from_translation, hdet]

/-- Forward reduction of `detect_new_expression` given the scene, store and
extraction outcomes. -/
lemma detect_head (store : String → Option KnowledgeBase)
    (o t : List Char) (s : String × ℚ) (rest : List (String × ℚ))
    (kb : KnowledgeBase) (c : Candidate) (crest : List Candidate)
    (hds : detect_scenes o = s :: rest) (hst : store s.1 = some kb)
    (hex : extract_potential_expressions o t (kb.expressions.map (·.source)) =
      c :: crest) :
    detect_new_expression store o t =
      some ⟨c.text, s.1, t, o, c.confidence, none, [], none⟩ := by
  simp [detect_new_expression, hds, hst, hex]

lemma alookup_aupdate_self (k : String) (v : β) :
    ∀ l : List (String × β), alookup k (aupdate k v l) = some v := by
  intro l
  induction l with
  | nil => simp [aupdate, alookup]
  | cons p rest ih =>
    obtain ⟨k₂, w⟩ := p
    by_cases hk : k₂ = k
    · simp [aupdate, alookup, hk]
    · simp [aupdate, alookup, hk, ih]

lemma countSource_eq_zero (p : List Char) (kb : KnowledgeBase)
    (h : p ∉ kb.expressions.map (·.source)) : countSource p kb = 0 := by
  simp only [countSource, List.length_eq_zero, List.filter_eq_nil_iff]
  intro e he hsrc
  exact h (List.mem_map.mpr ⟨e, he, by simpa using hsrc⟩)

/-- Merging two identical-source candidates into a base that does not yet
contain the source appends exactly one record with that source. -/
lemma countSource_merge_pair (kb : KnowledgeBase) (e₁ e₂ : NewExpr)
    (p : List Char) (hp₁ : e₁.source = p) (hp₂ : e₂.source = p)
    (hz : countSource p kb = 0)
    (hcon : (kb.expressions.map (·.source)).contains p = false) :
    countSource p (mergeExpressions kb [e₁, e₂] (kb.expressions.map (·.source))) = 1 := by
  subst hp₁
  have hcon₁ : (kb.expressions.map (·.source)).contains e₁.source = false := hcon
  rw [mergeExpressions, if_neg (by rw [hcon₁]; simp)]
  rw [mergeExpressions, if_pos (by simp [hp₂])]
  rw [mergeExpressions]
  simp only [countSource, List.filter_append]
  rw [List.length_append]
  have h₁ : (kb.expressions.filter (fun e => e.source == e₁.source)).length = 0 := hz ▸ rfl
  simp [toEntry, h₁]

end Lemmas

section Evaluation

/-- A scene with no keyword hit gets no score. -/
lemma sceneScore_of_zero (text : List Char) (c : SceneConfig)
    (h : hitCount text c = 0) : sceneScore text c = none := by
  simp [sceneScore, h]

/-- A scene with exactly one keyword hit gets its formula score. -/
lemma sceneScore_of_one (text : List Char) (c : SceneConfig)
    (h : hitCount text c = 1) :
    sceneScore text c =
      some ((1 : ℚ) / (c.keywords.length : ℚ) * (4/5) + min (c.weight / 10) (1/5)) := by
  simp [sceneScore, h]

/-- When no scene has a keyword hit, `detect_scenes` is empty. -/
lemma detect_scenes_eq_nil (text : List Char)
    (h : ∀ cfg ∈ scene_keywords, hitCount text cfg = 0) : detect_scenes text = [] := by
  have hfm : scene_keywords.filterMap
      (fun cfg => (sceneScore text cfg).map (fun s => (cfg.scene, s))) = [] := by
    rw [List.filterMap_eq_nil_iff]
    intro cfg hc
    rw [sceneScore_of_zero text cfg (h cfg hc)]
    rfl
  simp [detect_scenes, hfm]

lemma detect_scenes_hello : detect_scenes "hello".data = [] :=
  detect_scenes_eq_nil _ (by decide)

/-- A text hitting exactly one `daily_life` keyword and nothing else detects
exactly the `daily_life` scene with confidence `1/13 · 0.8 + 0.1 = 21/130`. -/
lemma detect_scenes_one_daily_hit (text : List Char)
    (h : scene_keywords.map (fun c => hitCount text c) = [1, 0, 0, 0, 0, 0]) :
    detect_scenes text = [("daily_life", 21/130)] := by
  simp only [scene_keywords, List.map_cons, List.map_nil, List.cons.injEq, and_true] at h
  obtain ⟨h₁, h₂, h₃, h₄, h₅, h₆⟩ := h
  have hfm : scene_keywords.filterMap
      (fun cfg => (sceneScore text cfg).map (fun s => (cfg.scene, s))) =
      [("daily_life", 21/130)] := by
    simp only [scene_keywords, List.filterMap_cons, List.filterMap_nil]
    rw [sceneScore_of_one text _ h₁, sceneScore_of_zero text _ h₂,
        sceneScore_of_zero text _ h₃, sceneScore_of_zero text _ h₄,
        sceneScore_of_zero text _ h₅, sceneScore_of_zero text _ h₆]
    norm_num
  simp only [detect_scenes]
  rw [hfm]
  simp only [List.insertionSort, List.orderedInsert]
  norm_num [List.filter_cons, List.filter_nil]

lemma detect_scenes_daPaiQu : detect_scenes "打牌去".data = [("daily_life", 21/130)] :=
  detect_scenes_one_daily_hit _ (by decide)

lemma detect_scenes_chiGua :
    detect_scenes "打酱油, 吃瓜群众".data = [("daily_life", 21/130)] :=
  detect_scenes_one_daily_hit _ (by decide)

/-- Extraction on `打牌去` against no existing sources yields the single
candidate with the colloquial and length bonuses applied. -/
lemma extract_daPaiQu :
    extract_potential_expressions "打牌去".data "go".data [] =
      [⟨"打牌去".data, min ((3:ℚ)/10 + 3/10 + 1/5) 1, 0⟩] := by
  have hf : findallCJK "打牌去".data = ["打牌去".data] := by
    simp [findallCJK, cjkChunk, isCJK]
  have hpf : pyFind "打牌去".data "打牌去".data = 0 := by decide
  simp [extract_potential_expressions, hf, colloquialChars, hpf]

/-- The first (staging-only) learning step on `打牌去 → go` from `syncCtx`. -/
lemma learn_daPaiQu :
    learn_from_translation (fun _ => none) (fun _ => false) false syncCtx
        "打牌去".data "go".data none =
      (some daPaiQuExpr,
       { syncCtx with pending := [("daily_life", [daPaiQuExpr])] }) := by
  have hdet : detect_new_expression (fun s => alookup s syncCtx.loaded)
      "打牌去".data "go".data =
      some ⟨"打牌去".data, "daily_life", "go".data, "打牌去".data,
            min ((3:ℚ)/10 + 3/10 + 1/5) 1, none, [], none⟩ :=
    detect_head (fun s => alookup s syncCtx.loaded) "打牌去".data "go".data
      ("daily_life", 21/130) [] (defaultShell "daily_life")
      ⟨"打牌去".data, min ((3:ℚ)/10 + 3/10 + 1/5) 1, 0⟩ []
      detect_scenes_daPaiQu rfl extract_daPaiQu
  rw [learn_eq _ _ _ _ _ _ _ hdet]
  rfl

end Evaluation

section Claims

open List

/-- C1: for every pair of provider translations reaching the quality-based
selection, `_intelligent_selection` behaves as specified: when the overall
scores differ by more than 0.2 it returns the higher-scoring engine's text,
method `<engine>_selected`, with that (higher) overall score as confidence;
otherwise it applies the fixed-order feature tie-break — mixed language →
DeepSeek at 0.9, cultural/idiom markers → DeepSeek at 0.9, technical markers
→ DeepL at 0.9, formal register → DeepL at 0.9 — and otherwise picks the
engine with the higher overall score (confidence that score, method
`<engine>_default`), ties going to DeepL. -/
theorem claim_C1 (t₁ t₂ : List Char) (qs : QualityScores) (tf : TextFeatures) :
    (1/5 < |qs.deepl.overall - qs.deepseek.overall| →
      intelligent_selection t₁ t₂ qs tf =
        (if qs.deepseek.overall < qs.deepl.overall
         then (t₁, "deepl_selected", qs.deepl.overall)
         else (t₂, "deepseek_selected", qs.deepseek.overall)) ∧
      (intelligent_selection t₁ t₂ qs tf).2.2 =
        max qs.deepl.overall qs.deepseek.overall)
    ∧ (|qs.deepl.overall - qs.deepseek.overall| ≤ 1/5 →
        tf.mixed_language = true →
        intelligent_selection t₁ t₂ qs tf = (t₂, "deepseek_mixed_language", 9/10))
    ∧ (|qs.deepl.overall - qs.deepseek.overall| ≤ 1/5 →
        tf.mixed_language = false →
        (tf.cultural_elements = true ∨ tf.idioms = true) →
        intelligent_selection t₁ t₂ qs tf = (t₂, "deepseek_cultural", 9/10))
    ∧ (|qs.deepl.overall - qs.deepseek.overall| ≤ 1/5 →
        tf.mixed_language = false → tf.cultural_elements = false →
        tf.idioms = false → tf.technical_terms = true →
        intelligent_selection t₁ t₂ qs tf = (t₁, "deepl_technical", 9/10))
    ∧ (|qs.deepl.overall - qs.deepseek.overall| ≤ 1/5 →
        tf.mixed_language = false → tf.cultural_elements = false →
        tf.idioms = false → tf.technical_terms = false →
        tf.formality = "formal" →
        intelligent_selection t₁ t₂ qs tf = (t₁, "deepl_formal", 9/10))
    ∧ (|qs.deepl.overall - qs.deepseek.overall| ≤ 1/5 →
        tf.mixed_language = false → tf.cultural_elements = false →
        tf.idioms = false → tf.technical_terms = false →
        tf.formality ≠ "formal" →
        intelligent_selection t₁ t₂ qs tf =
          (if qs.deepseek.overall ≤ qs.deepl.overall
           then (t₁, "deepl_default", qs.deepl.overall)
           else (t₂, "deepseek_default", qs.deepseek.overall)) ∧
        (intelligent_selection t₁ t₂ qs tf).2.2 =
          max qs.deepl.overall qs.deepseek.overall) := by
  refine ⟨?_, ?_, ?_, ?_, ?_, ?_⟩
  · intro h
    simp only [intelligent_selection]
    rw [if_pos h]
    by_cases hlt : qs.deepseek.overall < qs.deepl.overall
    · rw [if_pos hlt]
      exact ⟨rfl, (max_eq_left hlt.le).symm⟩
    · rw [if_neg hlt]
      exact ⟨rfl, (max_eq_right (not_lt.mp hlt)).symm⟩
  · intro h hm
    simp only [intelligent_selection]
    rw [if_neg (not_lt.mpr h), if_pos hm]
  · intro h hm hco
    have hb : (tf.cultural_elements || tf.idioms) = true := by
      rcases hco with h' | h' <;> simp [h']
    simp only [intelligent_selection]
    rw [if_neg (not_lt.mpr h), if_neg (by simp [hm] : ¬tf.mixed_language = true),
        if_pos hb]
  · intro h hm hc hi ht
    simp only [intelligent_selection]
    rw [if_neg (not_lt.mpr h), if_neg (by simp [hm] : ¬tf.mixed_language = true),
        if_neg (by simp [hc, hi] : ¬(tf.cultural_elements || tf.idioms) = true),
        if_pos ht]
  · intro h hm hc hi ht hf
    simp only [intelligent_selection]
    rw [if_neg (not_lt.mpr h), if_neg (by simp [hm] : ¬tf.mixed_language = true),
        if_neg (by simp [hc, hi] : ¬(tf.cultural_elements || tf.idioms) = true),
        if_neg (by simp [ht] : ¬tf.technical_terms = true), if_pos hf]
  · intro h hm hc hi ht hf
    simp only [intelligent_selection]
    rw [if_neg (not_lt.mpr h), if_neg (by simp [hm] : ¬tf.mixed_language = true),
        if_neg (by simp [hc, hi] : ¬(tf.cultural_elements || tf.idioms) = true),
        if_neg (by simp [ht] : ¬tf.technical_terms = true), if_neg hf]
    by_cases hd : qs.deepseek.overall ≤ qs.deepl.overall
    · rw [if_pos hd]
      exact ⟨rfl, (max_eq_left hd).symm⟩
    · rw [if_neg hd]
      exact ⟨rfl, (max_eq_right (not_le.mp hd).le).symm⟩

/-- Witness for C1 at a concrete input: scores 0.9 vs 0.5 (gap above 0.2)
make the large-gap branch pick DeepL's text with confidence `max 0.9 0.5`. -/
theorem claim_C1_witness :
    intelligent_selection "a".data "b".data
        ⟨⟨1, 1, 1, 1, 9/10⟩, ⟨1, 1, 1, 1, 1/2⟩⟩
        ⟨3, "simple", false, false, false, "neutral", false⟩ =
      (if (⟨⟨1, 1, 1, 1, 9/10⟩, ⟨1, 1, 1, 1, 1/2⟩⟩ : QualityScores).deepseek.overall <
          (⟨⟨1, 1, 1, 1, 9/10⟩, ⟨1, 1, 1, 1, 1/2⟩⟩ : QualityScores).deepl.overall
       then ("a".data, "deepl_selected", (9/10 : ℚ))
       else ("b".data, "deepseek_selected", (1/2 : ℚ))) ∧
    (intelligent_selection "a".data "b".data
        ⟨⟨1, 1, 1, 1, 9/10⟩, ⟨1, 1, 1, 1, 1/2⟩⟩
        ⟨3, "simple", false, false, false, "neutral", false⟩).2.2 =
      max (9/10 : ℚ) (1/2) :=
  (claim_C1 "a".data "b".data ⟨⟨1, 1, 1, 1, 9/10⟩, ⟨1, 1, 1, 1, 1/2⟩⟩
      ⟨3, "simple", false, false, false, "neutral", false⟩).1
    (by show (1:ℚ)/5 < |(9:ℚ)/10 - 1/2|
        rw [abs_of_pos (by norm_num : (0:ℚ) < (9:ℚ)/10 - 1/2)]
        norm_num)

/-- C2 counterexample: with DeepL returning the empty string (a non-null
provider translation) and DeepSeek returning null, `_select_best_translation`
returns `("", "failed", 0.0)` — not `("", "deepl_only", 0.8)` as the claim
requires for a pair with exactly one non-null translation: Python truthiness
conflates the empty string with null. -/
theorem claim_C2_counterexample :
    select_best_translation (fun _ => false) (fun _ => none) none []
        (some []) none = ([], "failed", 0) ∧
    select_best_translation (fun _ => false) (fun _ => none) none []
        (some []) none ≠ ([], "deepl_only", 4/5) := by
  constructor
  · rfl
  · decide

/-- C2 (amended): for every input to the selection step, if exactly one of the
two provider translations is non-null and non-empty (the other null or empty),
the decision is that text with method `<engine>_only` and confidence 0.8; if
both are null or empty, the decision is `("", "failed", 0.0)`. -/
theorem claim_C2_amended (mixedSig : List Char → Bool)
    (pf : List Char → Option ℚ) (rubric : Option (List Char))
    (original_text : List Char)
    (deepl_translation deepseek_translation : Option (List Char)) :
    (truthy deepl_translation = true → truthy deepseek_translation = false →
      select_best_translation mixedSig pf rubric original_text
          deepl_translation deepseek_translation =
        (deepl_translation.getD [], "deepl_only", 4/5))
    ∧ (truthy deepseek_translation = true → truthy deepl_translation = false →
      select_best_translation mixedSig pf rubric original_text
          deepl_translation deepseek_translation =
        (deepseek_translation.getD [], "deepseek_only", 4/5))
    ∧ (truthy deepl_translation = false → truthy deepseek_translation = false →
      select_best_translation mixedSig pf rubric original_text
          deepl_translation deepseek_translation = ([], "failed", 0)) := by
  refine ⟨?_, ?_, ?_⟩ <;> intro h₁ h₂ <;>
    simp [select_best_translation, h₁, h₂]

/-- Witness for C2 (amended) at a concrete input: DeepL succeeds with `"x"`,
DeepSeek returns null, and the decision is `("x", "deepl_only", 0.8)`. -/
theorem claim_C2_witness :
    select_best_translation (fun _ => false) (fun _ => none) none []
        (some "x".data) none = ((some "x".data).getD [], "deepl_only", 4/5) :=
  (claim_C2_amended (fun _ => false) (fun _ => none) none []
      (some "x".data) none).1 (by decide) (by decide)

/-- C10: when the highest-confidence detected scene of the original text has
no knowledge base loaded in the store, `detect_new_expression` returns `None`
and `learn_from_translation` returns `None` without staging anything or
touching any state — learning only adds to scenes that already have a
knowledge document. -/
theorem claim_C10 (em : List Char → Option (List Char)) (wf : String → Bool)
    (auto_save : Bool) (ctx : LearnerCtx)
    (original_text translated_text : List Char) (ai : Option (List Char))
    (s : String × ℚ) (rest : List (String × ℚ))
    (h₁ : detect_scenes original_text = s :: rest)
    (h₂ : alookup s.1 ctx.loaded = none) :
    detect_new_expression (fun sc => alookup sc ctx.loaded)
        original_text translated_text = none
    ∧ learn_from_translation em wf auto_save ctx
        original_text translated_text ai = (none, ctx) := by
  have hdet : detect_new_expression (fun sc => alookup sc ctx.loaded)
      original_text translated_text = none := by
    simp [detect_new_expression, h₁, h₂]
  exact ⟨hdet, by simp [learn_from_translation, hdet]⟩

/-- Witness for C10 at a concrete input: `"打牌去"` detects the `daily_life`
scene, the store is empty, and learning is a no-op. -/
theorem claim_C10_witness :
    detect_new_expression (fun sc => alookup sc (⟨[], [], []⟩ : LearnerCtx).loaded)
        "打牌去".data "play cards".data = none
    ∧ learn_from_translation (fun _ => none) (fun _ => false) true ⟨[], [], []⟩
        "打牌去".data "play cards".data none = (none, ⟨[], [], []⟩) :=
  claim_C10 (fun _ => none) (fun _ => false) true ⟨[], [], []⟩
    "打牌去".data "play cards".data none ("daily_life", 21/130) []
    detect_scenes_daPaiQu rfl

/-- The relevance heuristic is a sum of non-negative contributions. -/
lemma calculate_relevance_nonneg (sim : List Char → List Char → ℚ)
    (text : List Char) (expr : Expression) (kws : List (List Char))
    (hsim : ∀ a b, 0 ≤ sim a b) :
    0 ≤ calculate_relevance sim text expr kws := by
  simp only [calculate_relevance]
  refine le_min ?_ (by norm_num)
  refine add_nonneg (add_nonneg (add_nonneg ?_ ?_) ?_) ?_
  · split_ifs <;> norm_num
  · refine List.sum_nonneg ?_
    intro x hx
    simp only [List.mem_map] at hx
    obtain ⟨v, -, rfl⟩ := hx
    split_ifs <;> norm_num
  · split_ifs with h
    · norm_num
    · exact mul_nonneg (hsim _ _) (by norm_num)
  · split_ifs with h
    · norm_num
    · exact le_min (mul_nonneg (by positivity) (by norm_num)) (by norm_num)

/-- The relevance heuristic is clamped to at most 1. -/
lemma calculate_relevance_le_one (sim : List Char → List Char → ℚ)
    (text : List Char) (expr : Expression) (kws : List (List Char)) :
    calculate_relevance sim text expr kws ≤ 1 := by
  simp only [calculate_relevance]
  exact min_le_right _ _

/-- Every candidate of `retrieve` carries its own relevance score, which
passed the `min_confidence` filter. -/
lemma retrieveCandidates_mem (sim : List Char → List Char → ℚ)
    (store : String → Option KnowledgeBase) (text : List Char)
    (scenes : List String) (minc : ℚ) (r : RetrievalResult)
    (h : r ∈ retrieveCandidates sim store text scenes minc) :
    ∃ expr kws, r.relevance_score = calculate_relevance sim text expr kws ∧
      minc ≤ r.relevance_score := by
  simp only [retrieveCandidates] at h
  obtain ⟨scene, -, hmem⟩ := List.mem_flatMap.mp h
  cases hstore : store scene with
  | none => rw [hstore] at hmem; simp at hmem
  | some kb =>
    rw [hstore] at hmem
    obtain ⟨expr, -, heq⟩ := List.mem_filterMap.mp hmem
    by_cases hge : minc ≤ calculate_relevance sim text expr kb.keywords
    · rw [if_pos hge] at heq
      obtain rfl := (Option.some.injEq _ _).mp heq
      exact ⟨expr, kb.keywords, rfl, hge⟩
    · rw [if_neg hge] at heq
      exact absurd heq (by simp)

/-- C3: for every text, optional scene list, `top_k` and `min_confidence`,
`retrieve` returns at most `top_k` entries; every returned entry's relevance
is at least `min_confidence` and lies in `[0, 1]`; the result is sorted by
relevance descending; and two returned entries with equal relevance appear in
the order in which their candidates were inserted (stable sort).  The bounds
use difflib's documented contract `0 ≤ ratio ≤ 1` for the external
`SequenceMatcher.ratio` call. -/
theorem claim_C3 (sim : List Char → List Char → ℚ)
    (store : String → Option KnowledgeBase) (text : List Char)
    (scenes : Option (List String)) (top_k : Nat) (min_confidence : ℚ)
    (hsim : ∀ a b, 0 ≤ sim a b ∧ sim a b ≤ 1) :
    (retrieve sim store text scenes top_k min_confidence).length ≤ top_k
    ∧ (∀ r ∈ retrieve sim store text scenes top_k min_confidence,
        min_confidence ≤ r.relevance_score ∧ 0 ≤ r.relevance_score ∧
          r.relevance_score ≤ 1)
    ∧ (retrieve sim store text scenes top_k min_confidence).Sorted
        (rankDesc RetrievalResult.relevance_score)
    ∧ (∀ a b : RetrievalResult, a.relevance_score = b.relevance_score →
        [a, b] <+ retrieve sim store text scenes top_k min_confidence →
        [a, b] <+ retrieveCandidates sim store text
          (resolveScenes text scenes min_confidence) min_confidence) := by
  by_cases hres : (resolveScenes text scenes min_confidence).isEmpty
  · have hr : retrieve sim store text scenes top_k min_confidence = [] := by
      simp only [retrieve]
      rw [if_pos hres]
    refine ⟨by simp [hr], by simp [hr], by simp [hr], ?_⟩
    intro a b _ h
    rw [hr] at h
    simp at h
  · have hr : retrieve sim store text scenes top_k min_confidence =
        ((retrieveCandidates sim store text
            (resolveScenes text scenes min_confidence) min_confidence).insertionSort
          (rankDesc RetrievalResult.relevance_score)).take top_k := by
      simp only [retrieve]
      rw [if_neg hres]
    refine ⟨?_, ?_, ?_, ?_⟩
    · rw [hr]
      simp [List.length_take_le]
    · intro r hmem
      rw [hr] at hmem
      have h₂ : r ∈ (retrieveCandidates sim store text
          (resolveScenes text scenes min_confidence) min_confidence).insertionSort
            (rankDesc RetrievalResult.relevance_score) :=
        (List.take_sublist _ _).subset hmem
      rw [List.mem_insertionSort] at h₂
      obtain ⟨expr, kws, hscore, hge⟩ := retrieveCandidates_mem _ _ _ _ _ _ h₂
      refine ⟨hge, ?_, ?_⟩
      · rw [hscore]
        exact calculate_relevance_nonneg sim text expr kws (fun a b => (hsim a b).1)
      · rw [hscore]
        exact calculate_relevance_le_one sim text expr kws
    · rw [hr]
      exact (List.sorted_insertionSort _ _).sublist (List.take_sublist _ _)
    · intro a b hab h
      rw [hr] at h
      exact pair_sublist_of_insertionSort RetrievalResult.relevance_score _ hab
        (h.trans (List.take_sublist _ _))

/-- Witness for C3 at a concrete input (zero similarity function, empty
store): the retrieval returns at most five entries. -/
theorem claim_C3_witness :
    (retrieve (fun _ _ => 0) (fun _ => none) "hello".data none 5 (3/20)).length ≤ 5 :=
  (claim_C3 (fun _ _ => 0) (fun _ => none) "hello".data none 5 (3/20)
    (fun _ _ => ⟨le_refl 0, by norm_num⟩)).1

/-- C4: `detect_scenes` emits entries only for scenes with at least one
keyword hit, each scored `match_ratio · 0.8 + min(avg_weight/10, 0.2)`; every
returned entry has confidence at least 0.15; the list is ordered by
confidence non-increasing; and when no scene's keyword occurs in the text the
result is empty. -/
theorem claim_C4 (text : List Char) :
    (∀ e ∈ detect_scenes text, (3/20 : ℚ) ≤ e.2 ∧
      ∃ cfg ∈ scene_keywords, e.1 = cfg.scene ∧ 0 < hitCount text cfg ∧
        e.2 = (hitCount text cfg : ℚ) / (cfg.keywords.length : ℚ) * (4/5) +
              min ((hitCount text cfg : ℚ) * cfg.weight / (hitCount text cfg : ℚ) / 10)
                (1/5))
    ∧ (detect_scenes text).Sorted (rankDesc Prod.snd)
    ∧ ((∀ cfg ∈ scene_keywords, hitCount text cfg = 0) → detect_scenes text = []) := by
  refine ⟨?_, ?_, fun h => detect_scenes_eq_nil text h⟩
  · intro e he
    simp only [detect_scenes] at he
    obtain ⟨hmem, hp⟩ := List.mem_filter.mp he
    have hconf : (3/20 : ℚ) ≤ e.2 := of_decide_eq_true hp
    rw [List.mem_insertionSort] at hmem
    obtain ⟨cfg, hcfg, hEq⟩ := List.mem_filterMap.mp hmem
    refine ⟨hconf, cfg, hcfg, ?_⟩
    cases hsc : sceneScore text cfg with
    | none => rw [hsc] at hEq; simp at hEq
    | some q =>
      rw [hsc] at hEq
      simp only [Option.map_some', Option.some.injEq] at hEq
      by_cases h0 : hitCount text cfg = 0
      · rw [sceneScore_of_zero text cfg h0] at hsc
        exact absurd hsc (by simp)
      · have hq : q = (hitCount text cfg : ℚ) / (cfg.keywords.length : ℚ) * (4/5) +
            min ((hitCount text cfg : ℚ) * cfg.weight / (hitCount text cfg : ℚ) / 10)
              (1/5) := by
          have hsc' := hsc
          simp only [sceneScore] at hsc'
          rw [if_neg h0] at hsc'
          exact (Option.some.injEq _ _ ▸ hsc').symm
        subst hEq
        exact ⟨rfl, Nat.pos_of_ne_zero h0, hq⟩
  · have hs := List.sorted_insertionSort (rankDesc (Prod.snd : String × ℚ → ℚ))
      (scene_keywords.filterMap
        (fun cfg => (sceneScore text cfg).map (fun s => (cfg.scene, s))))
    simp only [detect_scenes]
    exact hs.filter _

/-- Witness for C4 at a concrete input: no scene keyword occurs in `"hello"`,
so scene detection returns the empty list. -/
theorem claim_C4_witness : detect_scenes "hello".data = [] :=
  (claim_C4 "hello".data).2.2 (by decide)

/-- C5 counterexample: in the feature-based default table (neutral features),
DeepSeek's tabulated overall score is 0.7, but the fixed weighted combination
of its sub-scores (0.7, 0.7, 0.8, 0.7) is 0.725 — the default table does not
recompute `overall` from the fixed weights. -/
theorem claim_C5_counterexample :
    (default_quality_scoring ⟨3, "simple", false, false, false, "neutral", false⟩).deepseek.overall
      = 7/10
    ∧ weightedOverall
        (default_quality_scoring ⟨3, "simple", false, false, false, "neutral", false⟩).deepseek
      = 29/40
    ∧ ((7 : ℚ)/10 ≠ 29/40) := by
  refine ⟨?_, ?_, by norm_num⟩ <;>
    norm_num [default_quality_scoring, weightedOverall,
      (show ¬("neutral" : String) = "formal" by decide)]

/-- C5 (amended): when the rubric text parses without error, each engine's
overall equals `0.3·accuracy + 0.25·fluency + 0.25·cultural + 0.2·completeness`
of its (parsed-or-default) sub-scores; and in the feature-based default table
every sub-score lies in `[0, 1]` (that table's `overall` is tabulated and need
not equal the weighted combination; rubric-parsed sub-scores are taken as
parsed, without clamping). -/
theorem claim_C5_amended :
    (∀ (pf : List Char → Option ℚ) (analysis_result : List Char),
      (parseLines pf (splitOnChar '\n' analysis_result) initScores none).2 = true →
        (parse_quality_scores pf analysis_result).deepl.overall =
          weightedOverall (parse_quality_scores pf analysis_result).deepl ∧
        (parse_quality_scores pf analysis_result).deepseek.overall =
          weightedOverall (parse_quality_scores pf analysis_result).deepseek)
    ∧ (∀ tf : TextFeatures,
        ((0 ≤ (default_quality_scoring tf).deepl.accuracy ∧
            (default_quality_scoring tf).deepl.accuracy ≤ 1) ∧
         (0 ≤ (default_quality_scoring tf).deepl.fluency ∧
            (default_quality_scoring tf).deepl.fluency ≤ 1) ∧
         (0 ≤ (default_quality_scoring tf).deepl.cultural_adaptation ∧
            (default_quality_scoring tf).deepl.cultural_adaptation ≤ 1) ∧
         (0 ≤ (default_quality_scoring tf).deepl.completeness ∧
            (default_quality_scoring tf).deepl.completeness ≤ 1)) ∧
        ((0 ≤ (default_quality_scoring tf).deepseek.accuracy ∧
            (default_quality_scoring tf).deepseek.accuracy ≤ 1) ∧
         (0 ≤ (default_quality_scoring tf).deepseek.fluency ∧
            (default_quality_scoring tf).deepseek.fluency ≤ 1) ∧
         (0 ≤ (default_quality_scoring tf).deepseek.cultural_adaptation ∧
            (default_quality_scoring tf).deepseek.cultural_adaptation ≤ 1) ∧
         (0 ≤ (default_quality_scoring tf).deepseek.completeness ∧
            (default_quality_scoring tf).deepseek.completeness ≤ 1))) := by
  constructor
  · intro pf analysis_result h
    simp only [parse_quality_scores]
    rw [if_pos h]
    constructor <;> simp [recomputeOverall, weightedOverall]
  · intro tf
    simp only [default_quality_scoring]
    split_ifs <;> norm_num

/-- Witness for C5 (amended): the empty rubric text parses without error
(no rubric line is present, every sub-score stays 0.5), and the recomputed
DeepL overall equals the weighted combination. -/
theorem claim_C5_witness :
    (parse_quality_scores (fun _ => none) []).deepl.overall =
      weightedOverall (parse_quality_scores (fun _ => none) []).deepl :=
  (claim_C5_amended.1 (fun _ => none) [] rfl).1

/-- C7 counterexample: two staged scenes `"a"` and `"b"`, a write failure on
scene `"a"` — the flush aborts: scene `"b"`'s entry is not persisted, flush
reports failure, and the staged buffer is left untouched.  A failure in one
scene's write does block the other scene's write. -/
theorem claim_C7_counterexample :
    (save_updates (fun s => s == "a")
        ⟨[], [], [("a", [⟨"x".data, "a", [], [], 0, none, [], none⟩]),
                  ("b", [⟨"y".data, "b", [], [], 0, none, [], none⟩])]⟩).2 = false
    ∧ alookup "b" (save_updates (fun s => s == "a")
        ⟨[], [], [("a", [⟨"x".data, "a", [], [], 0, none, [], none⟩]),
                  ("b", [⟨"y".data, "b", [], [], 0, none, [], none⟩])]⟩).1.files = none
    ∧ (save_updates (fun s => s == "a")
        ⟨[], [], [("a", [⟨"x".data, "a", [], [], 0, none, [], none⟩]),
                  ("b", [⟨"y".data, "b", [], [], 0, none, [], none⟩])]⟩).1.pending =
      [("a", [⟨"x".data, "a", [], [], 0, none, [], none⟩]),
       ("b", [⟨"y".data, "b", [], [], 0, none, [], none⟩])] :=
  ⟨rfl, rfl, rfl⟩

/-- C7 (amended): flush processes staged scenes in insertion order inside a
single try block.  If every staged scene's write succeeds, all staged scenes
are persisted, the buffer is cleared, the loader reloads the new files and
flush returns true.  Otherwise the scenes staged strictly before the first
failing write are persisted, the failing and all later staged scenes are not,
the staged buffer and loader snapshot are left unchanged, and flush returns
false. -/
theorem claim_C7_amended (wf : String → Bool) (ctx : LearnerCtx)
    (h : ctx.pending ≠ []) :
    save_updates wf ctx =
      if ctx.pending.all (fun p => !wf p.1)
      then (⟨mergeAllScenes ctx.files ctx.pending,
             mergeAllScenes ctx.files ctx.pending, []⟩, true)
      else (⟨mergeAllScenes ctx.files (ctx.pending.takeWhile (fun p => !wf p.1)),
             ctx.loaded, ctx.pending⟩, false) := by
  simp only [save_updates]
  rw [if_neg (by simpa [List.isEmpty_iff] using h)]
  exact saveGo_spec wf ctx ctx.pending ctx.files

/-- Witness for C7 (amended) at a concrete input: a single staged scene with
no write failure is persisted, the buffer cleared, and flush returns true. -/
theorem claim_C7_witness :
    save_updates (fun _ => false)
        ⟨[], [], [("a", ([] : List NewExpr))]⟩ =
      (⟨mergeAllScenes [] [("a", ([] : List NewExpr))],
        mergeAllScenes [] [("a", ([] : List NewExpr))], []⟩, true) :=
  claim_C7_amended (fun _ => false) ⟨[], [], [("a", [])]⟩ (by simp)

/-- C9: prompt composition with `use_rag` is total — for every input the
composed instruction ends with the literal source text; empty optional
sections (scenes, retrieved knowledge, guidelines) are omitted without error
(with no detected scene and hence no retrieval, the prompt is exactly header +
requirements + source text); and when the external mixed-language signal
reports mixed content, the client inserts the mixed-language notice
immediately before the fixed `【翻译要求】` requirements section. -/
theorem claim_C9 (fmt2 : ℚ → List Char) (sim : List Char → List Char → ℚ)
    (store : String → Option KnowledgeBase) (text : List Char)
    (source_lang target_lang : String) (use_rag : Bool) (top_k : Nat)
    (mixedSig : List Char → Bool) :
    (text <:+ generate_enhanced_prompt fmt2 sim store text source_lang
        target_lang use_rag top_k)
    ∧ (detect_scenes text = [] →
        generate_enhanced_prompt fmt2 sim store text source_lang target_lang
            true top_k =
          baseHeader source_lang target_lang ++ requirementsBlock ++
            "原文：".data ++ text)
    ∧ (mixedSig text = true →
        ∃ A B, client_generate_enhanced_prompt mixedSig fmt2 sim store text
            source_lang target_lang top_k =
          A ++ mixedNotice ++ reqMarker ++ B) := by
  have hreq : requirementsBlock = reqMarker ++
      ("\n1. 仔细分析文本中的场景特定表达，参考上述知识库提供的翻译指导\n" ++
       "2. 对于文化特定表达，要理解其实际含义而非字面意思\n" ++
       "3. 确保翻译准确且符合目标语言习惯\n" ++
       "4. 保持原文的语调和情感\n" ++
       "5. 只返回翻译结果，不要添加解释\n\n").data := by decide
  have hdecomp : ∀ k : Nat, ∃ P, generate_enhanced_prompt fmt2 sim store text
      source_lang target_lang true k =
      P ++ (requirementsBlock ++ ("原文：".data ++ text)) := by
    intro k
    simp only [generate_enhanced_prompt, Bool.not_true, Bool.false_eq_true,
      if_false]
    exact ⟨_, by rw [List.append_assoc]⟩
  refine ⟨?_, ?_, ?_⟩
  · cases use_rag with
    | false => exact List.suffix_append _ _
    | true =>
      obtain ⟨P, hP⟩ := hdecomp top_k
      rw [hP]
      exact ((List.suffix_append _ _).trans (List.suffix_append _ _)).trans
        (List.suffix_append _ _)
  · intro hds
    have hrk : retrieve sim store text none top_k (3/20) = [] := by
      simp [retrieve, resolveScenes, hds]
    simp [generate_enhanced_prompt, hds, hrk, List.append_assoc]
  · intro hmix
    obtain ⟨P, hP⟩ := hdecomp top_k
    have hsub : isSub reqMarker (generate_enhanced_prompt fmt2 sim store text
        source_lang target_lang true top_k) = true := by
      rw [hP, hreq]
      apply isSub_append_left
      rw [List.append_assoc]
      exact isSub_self_append _ _
    have hsub' : isSub ('【' :: "翻译要求】".data)
        (generate_enhanced_prompt fmt2 sim store text source_lang target_lang
          true top_k) = true := hsub
    simp only [client_generate_enhanced_prompt]
    rw [if_pos hmix, if_pos hsub]
    obtain ⟨A, B, hAB⟩ := replaceAll_of_isSub '【' "翻译要求】".data
      (mixedNotice ++ reqMarker) _ hsub'
    refine ⟨A, B, ?_⟩
    rw [hAB]
    simp [List.append_assoc]

/-- Witness for C9 at a concrete input: no scene keyword occurs in `"hello"`,
so every optional section is omitted and the prompt is exactly header +
requirements + literal source text. -/
theorem claim_C9_witness :
    generate_enhanced_prompt (fun _ => []) (fun _ _ => 0) (fun _ => none)
        "hello".data "中文" "英语" true 5 =
      baseHeader "中文" "英语" ++ requirementsBlock ++ "原文：".data ++
        "hello".data :=
  (claim_C9 (fun _ => []) (fun _ _ => 0) (fun _ => none) "hello".data
    "中文" "英语" true 5 (fun _ => true)).2.1 detect_scenes_hello

/-- C8 counterexample: the knowledge base lists `吃瓜群众` as a *variant* of
`打酱油`, yet for the text `"打酱油, 吃瓜群众"` the learner proposes exactly
that variant phrase as a new expression — only existing *sources* are
excluded from extraction, variants are not consulted. -/
theorem claim_C8_counterexample :
    (detect_new_expression
        (fun s => if s = "daily_life" then some variantKB else none)
        "打酱油, 吃瓜群众".data "melon eaters".data).map (fun e => e.source) =
      some "吃瓜群众".data
    ∧ variantKB.expressions.any
        (fun ex => ex.variants.contains "吃瓜群众".data) = true := by
  constructor
  · have hfind : findallCJK "打酱油, 吃瓜群众".data =
        ["打酱油".data, "吃瓜群众".data] := by
      simp [findallCJK, cjkChunk, isCJK]
    cases hex : extract_potential_expressions "打酱油, 吃瓜群众".data
        "melon eaters".data (variantKB.expressions.map (·.source)) with
    | nil =>
      obtain ⟨c, hc, -⟩ := extract_complete "打酱油, 吃瓜群众".data
        "melon eaters".data (variantKB.expressions.map (·.source))
        "吃瓜群众".data (by rw [hfind]; simp) (by decide)
      rw [hex] at hc
      simp at hc
    | cons c crest =>
      have hc : c ∈ extract_potential_expressions "打酱油, 吃瓜群众".data
          "melon eaters".data (variantKB.expressions.map (·.source)) := by
        rw [hex]
        exact List.mem_cons_self c crest
      obtain ⟨hmem, hcon, -⟩ := extract_mem _ _ _ _ hc
      rw [hfind] at hmem
      have hct : c.text = "吃瓜群众".data := by
        rcases List.mem_cons.mp hmem with h | h
        · rw [h] at hcon
          exact absurd hcon (by decide)
        · simpa using h
      rw [detect_head (fun s => if s = "daily_life" then some variantKB else none)
        _ _ _ _ _ _ _ detect_scenes_chiGua (by simp) hex]
      simp [hct]
  · decide

/-- C8 (amended): the learner extracts contiguous CJK phrases of length 2–6
from the original text, excluding any phrase already present as a *source* in
the primary scene's knowledge base (variants are not consulted); each
candidate's confidence is base 0.3, +0.3 for a colloquial-set character, +0.2
for length at most 4, clamped to 1.0; candidates are sorted by confidence
descending (stable), and the observation step returns the first — hence a
highest-confidence — candidate. -/
theorem claim_C8_amended (original_text translated_text : List Char)
    (existing : List (List Char)) :
    (∀ c ∈ extract_potential_expressions original_text translated_text existing,
        c.text ∈ findallCJK original_text ∧ existing.contains c.text = false ∧
        2 ≤ c.text.length ∧ c.text.length ≤ 6 ∧ c.text.all isCJK = true ∧
        isSub c.text original_text = true ∧
        c.confidence = min ((3:ℚ)/10 +
          (if colloquialChars.any (fun ch => c.text.contains ch) then (3:ℚ)/10 else 0) +
          (if c.text.length ≤ 4 then (1:ℚ)/5 else 0)) 1)
    ∧ (extract_potential_expressions original_text translated_text
        existing).Sorted (rankDesc Candidate.confidence)
    ∧ (∀ ph ∈ findallCJK original_text, existing.contains ph = false →
        ∃ c ∈ extract_potential_expressions original_text translated_text existing,
          c.text = ph)
    ∧ (∀ (store : String → Option KnowledgeBase) (s : String × ℚ)
          (rest : List (String × ℚ)) (kb : KnowledgeBase),
        detect_scenes original_text = s :: rest → store s.1 = some kb →
        detect_new_expression store original_text translated_text =
          (extract_potential_expressions original_text translated_text
            (kb.expressions.map (·.source))).head?.map
            (fun c => ⟨c.text, s.1, translated_text, original_text,
                       c.confidence, none, [], none⟩)) := by
  refine ⟨?_, ?_, extract_complete original_text translated_text existing, ?_⟩
  · intro c hc
    obtain ⟨hmem, hcon, hconf⟩ := extract_mem _ _ _ _ hc
    obtain ⟨h₁, h₂, h₃, h₄⟩ := findallCJK_mem _ _ hmem
    exact ⟨hmem, hcon, h₁, h₂, h₃, h₄, hconf⟩
  · simp only [extract_potential_expressions]
    exact List.sorted_insertionSort _ _
  · intro store s rest kb hds hst
    cases hex : extract_potential_expressions original_text translated_text
        (kb.expressions.map (·.source)) with
    | nil => simp [detect_new_expression, hds, hst, hex]
    | cons c crest => simp [detect_new_expression, hds, hst, hex]

/-- Witness for C8 (amended) at a concrete input: with an empty `daily_life`
shell loaded, the observation step on `"打牌去"` returns the head of the
extraction. -/
theorem claim_C8_witness :
    detect_new_expression
        (fun s => if s = "daily_life" then some (defaultShell "daily_life") else none)
        "打牌去".data "go".data =
      (extract_potential_expressions "打牌去".data "go".data
        ((defaultShell "daily_life").expressions.map (·.source))).head?.map
        (fun c => ⟨c.text, (("daily_life", (21:ℚ)/130) : String × ℚ).1,
                   "go".data, "打牌去".data, c.confidence, none, [], none⟩) :=
  (claim_C8_amended "打牌去".data "go".data []).2.2.2
    (fun s => if s = "daily_life" then some (defaultShell "daily_life") else none)
    ("daily_life", 21/130) [] (defaultShell "daily_life")
    detect_scenes_daPaiQu (by simp)

/-- C6: learning is idempotent under duplicate observation: starting from a
synchronised learner whose staging buffer is empty, observing the same
translation pair twice and then flushing persists exactly one expression
record for the detected phrase in its scene's on-disk knowledge base (the
duplicate staged candidate is skipped at flush because its source already
exists), and the flush reports success. -/
theorem claim_C6 (em : List Char → Option (List Char)) (wf wfl : String → Bool)
    (ctx : LearnerCtx) (o t : List Char) (ai : Option (List Char))
    (e : NewExpr) (st₁ : LearnerCtx)
    (hpend : ctx.pending = []) (hsync : ctx.loaded = ctx.files)
    (h₁ : learn_from_translation em wf false ctx o t ai = (some e, st₁))
    (hwf : wfl e.scene = false) :
    ∃ kb : KnowledgeBase,
      alookup e.scene
        ((save_updates wfl
          (learn_from_translation em wf false st₁ o t ai).2).1).files =
        some kb ∧
      countSource e.source kb = 1 ∧
      (save_updates wfl
        (learn_from_translation em wf false st₁ o t ai).2).2 = true := by
  cases hdet : detect_new_expression (fun s => alookup s ctx.loaded) o t with
  | none => simp [learn_from_translation, hdet] at h₁
  | some d =>
    rw [learn_eq em wf ctx o t ai d hdet] at h₁
    simp only [Prod.mk.injEq, Option.some.injEq] at h₁
    obtain ⟨he, hst₁⟩ := h₁
    subst he
    obtain ⟨s, -, kb, c, crest, -, hst, hex, hd⟩ :=
      detect_some _ o t d hdet
    have hload : st₁.loaded = ctx.loaded := by rw [← hst₁]
    have hfiles : st₁.files = ctx.files := by rw [← hst₁]
    have hpend₁ : st₁.pending = stagePending (enrich em ai t d).scene
        (enrich em ai t d) ctx.pending := by rw [← hst₁]
    have hdet₂ : detect_new_expression (fun x => alookup x st₁.loaded) o t =
        some d := by rw [hload]; exact hdet
    have key : (learn_from_translation em wf false st₁ o t ai).2 =
        ⟨ctx.files, ctx.loaded,
         [((enrich em ai t d).scene,
           [enrich em ai t d, enrich em ai t d])]⟩ := by
      rw [learn_eq em wf st₁ o t ai d hdet₂]
      simp only [LearnerCtx.mk.injEq]
      refine ⟨hfiles, hload, ?_⟩
      rw [hpend₁, hpend]
      simp [stagePending, alookup, aupdate]
    rw [key]
    have hsv : save_updates wfl
        ⟨ctx.files, ctx.loaded,
         [((enrich em ai t d).scene,
           [enrich em ai t d, enrich em ai t d])]⟩ =
        (⟨aupdate (enrich em ai t d).scene
            (mergeScene ctx.files (enrich em ai t d).scene
              [enrich em ai t d, enrich em ai t d]) ctx.files,
          aupdate (enrich em ai t d).scene
            (mergeScene ctx.files (enrich em ai t d).scene
              [enrich em ai t d, enrich em ai t d]) ctx.files, []⟩, true) := by
      simp [save_updates, saveGo, hwf]
    rw [hsv]
    refine ⟨mergeScene ctx.files (enrich em ai t d).scene
        [enrich em ai t d, enrich em ai t d],
      alookup_aupdate_self _ _ _, ?_, rfl⟩
    have hscene : (enrich em ai t d).scene = s.1 := by rw [hd]; rfl
    have hsource : (enrich em ai t d).source = c.text := by rw [hd]; rfl
    have hfile : alookup s.1 ctx.files = some kb := by
      rw [← hsync]; exact hst
    have hmerge : mergeScene ctx.files (enrich em ai t d).scene
        [enrich em ai t d, enrich em ai t d] =
        mergeExpressions kb [enrich em ai t d, enrich em ai t d]
          (kb.expressions.map (·.source)) := by
      rw [hscene]
      simp [mergeScene, hfile]
    rw [hmerge, hsource]
    have hc : c ∈ extract_potential_expressions o t
        (kb.expressions.map (·.source)) := by
      rw [hex]
      exact List.mem_cons_self c crest
    obtain ⟨-, hcon, -⟩ := extract_mem _ _ _ _ hc
    exact countSource_merge_pair kb _ _ c.text hsource hsource
      (countSource_eq_zero _ _ (by simpa using hcon)) hcon

/-- Witness for C6 at a concrete input: learning `打牌去 → go` twice from the
synchronised single-shell learner and flushing persists exactly one record
for `打牌去` in the `daily_life` file, and the flush succeeds. -/
theorem claim_C6_witness :
    syncCtx.pending = [] ∧ syncCtx.loaded = syncCtx.files ∧
    learn_from_translation (fun _ => none) (fun _ => false) false syncCtx
        "打牌去".data "go".data none =
      (some daPaiQuExpr,
       { syncCtx with pending := [("daily_life", [daPaiQuExpr])] }) ∧
    (fun _ : String => false) daPaiQuExpr.scene = false ∧
    (∃ kb : KnowledgeBase,
      alookup daPaiQuExpr.scene
        ((save_updates (fun _ => false)
          (learn_from_translation (fun _ => none) (fun _ => false) false
            { syncCtx with pending := [("daily_life", [daPaiQuExpr])] }
            "打牌去".data "go".data none).2).1).files = some kb ∧
      countSource daPaiQuExpr.source kb = 1 ∧
      (save_updates (fun _ => false)
        (learn_from_translation (fun _ => none) (fun _ => false) false
          { syncCtx with pending := [("daily_life", [daPaiQuExpr])] }
          "打牌去".data "go".data none).2).2 = true) :=
  ⟨rfl, rfl, learn_daPaiQu, rfl,
   claim_C6 (fun _ => none) (fun _ => false) (fun _ => false) syncCtx
     "打牌去".data "go".data none daPaiQuExpr
     { syncCtx with pending := [("daily_life", [daPaiQuExpr])] }
     rfl rfl learn_daPaiQu rfl⟩

end Claims

end LLMTranslator
